import Mathlib

set_option maxRecDepth 100000
set_option maxHeartbeats 4000000

/-!
Verification of the ChessEngine repository (python sources under src/).

The Python program is shallowly embedded: the 120-cell padded board is a
`List Nat` of length 120, ctypes unsigned integers are `Nat` (with explicit
`% 2 ^ 32` / `% 2 ^ 64` where Python truncates), Python `None`-able results
are `Option`, and the randomly generated Zobrist keys of hashkeys.py are a
parameter `HashKeys`.  Pygame / artifact calls in the sources only read the
board and write UI attributes of the `Artifacts` class, so they are elided
from the board-state semantics (their board argument is read-only).
-/

namespace ChessEngine

/-- data.py: `file_rank_to_index(index) = index // 8 * 2 + 21 + index`,
mapping a dense 64-square index to the padded 120-square index. -/
def file_rank_to_index (index : Nat) : Nat :=
  index / 8 * 2 + 21 + index

/-- enums.py `Piece.EMPTY.value`. -/
def EMPTY : Nat := 0
/-- enums.py `Tiles.NO_SQUARE.value`. -/
def NO_SQUARE : Nat := 99
/-- enums.py `Tiles.OFF_BOARD.value`. -/
def OFF_BOARD : Nat := 100

/-- data.py `FilesBrd`: starts as 120 copies of `OFF_BOARD` (100) and the
loop `for rank in range(8): for file in range(8)` writes the file of each
playable square at `file_rank_to_index(rank * 8 + file)`; here `i = rank*8+file`
so `file = i % 8`. -/
def FilesBrd : List Nat :=
  (List.range 64).foldl (fun l i => l.set (file_rank_to_index i) (i % 8))
    (List.replicate 120 100)

/-- data.py `RanksBrd`: same loop as `FilesBrd`, writing `rank = i / 8`. -/
def RanksBrd : List Nat :=
  (List.range 64).foldl (fun l i => l.set (file_rank_to_index i) (i / 8))
    (List.replicate 120 100)

/-- board.py `init_board_maps`: `map64To120[sq64] = file_rank_to_index(sq64)`
for `sq64 = 0 .. 63` (the loop enumerates `rank * 8 + file` in order). -/
def map64To120 : List Nat :=
  (List.range 64).map file_rank_to_index

/-- board.py `init_board_maps`: `map120To64` is a zero-initialised
`(ull * 120)()` ctypes array whose playable entries are written by the same
loop: `map120To64[file_rank_to_index(sq64)] = sq64`. -/
def map120To64 : List Nat :=
  (List.range 64).foldl (fun l i => l.set (file_rank_to_index i) i)
    (List.replicate 120 0)

/-- data.py `BitTable` (the De Bruijn lookup table used by `pop_bit`). -/
def BitTable : List Nat :=
  [63, 30, 3, 32, 25, 41, 22, 33, 15, 50, 42, 13, 11, 53, 19, 34, 61, 29, 2,
   51, 21, 43, 45, 10, 18, 47, 1, 54, 9, 57, 0, 35, 62, 31, 40, 4, 49, 5, 52,
   26, 60, 6, 23, 44, 46, 27, 56, 16, 7, 39, 48, 24, 59, 14, 12, 55, 38, 28,
   58, 20, 37, 17, 36, 8]

/-- data.py `PieceCol`. -/
def PieceCol : List Nat := [2, 0, 0, 0, 0, 0, 0, 1, 1, 1, 1, 1, 1]
/-- data.py `PieceMaj` (Bool entries). -/
def PieceMaj : List Bool :=
  [false, false, false, false, true, true, true, false, false, false, true, true, true]
/-- data.py `PieceMin`. -/
def PieceMin : List Bool :=
  [false, false, true, true, false, false, false, false, true, true, false, false, false]
/-- data.py `PieceVal`. -/
def PieceVal : List Nat :=
  [0, 100, 325, 325, 550, 1000, 50000, 100, 325, 325, 550, 1000, 50000]

/-- data.py `KnightDirection`. -/
def KnightDirection : List Int := [-21, -19, -12, -8, 8, 12, 19, 21]
/-- data.py `BishopDirection`. -/
def BishopDirection : List Int := [-11, -9, 9, 11]
/-- data.py `RookDirection`. -/
def RookDirection : List Int := [-10, -1, 1, 10]

/-- enums.py `Tiles(v).name` for a playable padded square `v`: the enum names
are the uppercase file letter followed by the rank digit (`Tiles(55).name`
is the string `"E4"`). -/
def tileName (sq : Nat) : String :=
  (["A", "B", "C", "D", "E", "F", "G", "H"].getD (FilesBrd.getD sq 100) "") ++
    toString (RanksBrd.getD sq 100 + 1)

/-- bitboards.py `set_bit`: `bitboard |= setMask[sq]` with
`setMask[i] = 1 << i`. -/
def set_bit (bitboard : Nat) (sq : Nat) : Nat :=
  bitboard ||| (1 <<< sq)

/-- bitboards.py `pop_bit`.  ull/uint arithmetic: the caller guarantees the
bitboard is non-zero (calling on zero is documented as undefined), so
`bitboard.value - 1` does not wrap and the two 32-bit halves of
`b = x ^ (x - 1)` are both below `2 ^ 32`; the only place Python truncates
is `uint(fold * 0x783a9b23)`, kept here as `% 2 ^ 32`. -/
def pop_bit (bitboard : Nat) : Nat × Nat :=
  let b := bitboard ^^^ (bitboard - 1)
  let fold := (b &&& 0xffffffff) ^^^ (b >>> 32)
  (BitTable.getD ((fold * 0x783a9b23 % 4294967296) >>> 26) 0,
   bitboard &&& (bitboard - 1))

/-- Index of the least significant set bit (specification side, used to state
what `pop_bit` recovers; 0 on input 0). -/
def lsbIdx (b : Nat) : Nat :=
  if b = 0 then 0
  else if b % 2 = 1 then 0
  else lsbIdx (b / 2) + 1
termination_by b
decreasing_by exact Nat.div_lt_self (Nat.pos_of_ne_zero (by assumption)) (by omega)

/-- The random Zobrist keys drawn at import time by hashkeys.py; the program
never constrains their values, so they are a parameter of the embedding. -/
structure HashKeys where
  pieceKeys : Nat → Nat → Nat
  turnKey : Nat
  castleKeys : Nat → Nat

/-- board.py `Undo`: the per-move history record. -/
structure Undo where
  move : Nat
  castle : Nat
  fiftyMoveClock : Nat
  enPassant : Nat
  hashKey : Nat
deriving Repr, DecidableEq

/-- board.py `Board`: the mutable board object.  `pieces` has 120 entries,
`history` 2048, `pawns` three 64-bit bitboards.  UI-only attributes
(artifacts, history stacks) are not part of the game-state semantics. -/
structure BoardState where
  pieces : List Nat
  turn : Nat
  castle : Nat
  enPassant : Nat
  fiftyMoveClock : Nat
  kingSquare : List Nat
  hisply : Nat
  pceNum : List Nat
  bigPce : List Nat
  majPce : List Nat
  minPce : List Nat
  material : List Nat
  pList : List (List Nat)
  pawns : List Nat
  posKey : Nat
  history : List (Option Undo)
  pgnArr : List String
  pgn : String
deriving Repr, DecidableEq

/-- move.py `Move.__init__`: the per-move selection state.  `from120` and
`to120` are initialised to `-1`, hence `Int`.  `prom` is 0/1/2 (Python
`False` is numerically 0). -/
structure MoveState where
  from120 : Int
  to120 : Int
  capturedPiece : Nat
  fromPiece : Nat
  prom : Nat
  promPiece : Nat
  enPassant : Nat
deriving Repr, DecidableEq

/-- hashkeys.py `generate_pos_key`: xors a key for every square whose value is
neither `NO_SQUARE`, `EMPTY` nor `OFF_BOARD`, the turn key when white to move,
an en-passant key, and the castle key. -/
def generate_pos_key (hk : HashKeys) (b : BoardState) : Nat :=
  let k1 := (List.range 120).foldl
    (fun key sq =>
      let piece := b.pieces.getD sq 0
      if piece ≠ 99 ∧ piece ≠ 0 ∧ piece ≠ 100 then key ^^^ hk.pieceKeys piece sq
      else key) 0
  let k2 := if b.turn = 0 then k1 ^^^ hk.turnKey else k1
  let k3 := if b.enPassant ≠ 99 then k2 ^^^ hk.pieceKeys 0 b.enPassant else k2
  k3 ^^^ hk.castleKeys b.castle

/-- The aggregate data maintained by board.py `update_materials`. -/
structure Agg where
  pceNum : List Nat
  bigPce : List Nat
  majPce : List Nat
  minPce : List Nat
  material : List Nat
  kingSquare : List Nat
  pList : List (List Nat)
  pawns : List Nat
deriving Repr, DecidableEq

/-- The loop body of board.py `update_materials`: starting from the
`reset_materials` zero state, scan all 120 squares of the pieces array and
accumulate the counts, king squares, material sums, piece lists and pawn
bitboards exactly as the source does. -/
def scanMaterials (pieces : List Nat) : Agg :=
  (List.range 120).foldl
    (fun a sq120 =>
      let piece := pieces.getD sq120 0
      if piece ≠ 99 ∧ piece ≠ 100 ∧ piece ≠ 0 then
        let colour := PieceCol.getD piece 0
        let a :=
          if piece = 1 then
            { a with pawns := ((a.pawns.set 0 (set_bit (a.pawns.getD 0 0) (map120To64.getD sq120 0))).set 2
                (set_bit ((a.pawns.set 0 (set_bit (a.pawns.getD 0 0) (map120To64.getD sq120 0))).getD 2 0)
                  (map120To64.getD sq120 0))) }
          else if piece = 7 then
            { a with pawns := ((a.pawns.set 1 (set_bit (a.pawns.getD 1 0) (map120To64.getD sq120 0))).set 2
                (set_bit ((a.pawns.set 1 (set_bit (a.pawns.getD 1 0) (map120To64.getD sq120 0))).getD 2 0)
                  (map120To64.getD sq120 0))) }
          else if piece = 6 ∨ piece = 12 then
            { a with kingSquare := a.kingSquare.set colour sq120,
                     majPce := a.majPce.set colour (a.majPce.getD colour 0 + 1),
                     bigPce := a.bigPce.set colour (a.bigPce.getD colour 0 + 1) }
          else if PieceMaj.getD piece false then
            { a with majPce := a.majPce.set colour (a.majPce.getD colour 0 + 1),
                     bigPce := a.bigPce.set colour (a.bigPce.getD colour 0 + 1) }
          else if PieceMin.getD piece false then
            { a with minPce := a.minPce.set colour (a.minPce.getD colour 0 + 1),
                     bigPce := a.bigPce.set colour (a.bigPce.getD colour 0 + 1) }
          else a
        { a with material := a.material.set colour
                   (a.material.getD colour 0 + PieceVal.getD piece 0),
                 pList := a.pList.set piece
                   ((a.pList.getD piece []).set (a.pceNum.getD piece 0) sq120),
                 pceNum := a.pceNum.set piece (a.pceNum.getD piece 0 + 1) }
      else a)
    { pceNum := List.replicate 13 0, bigPce := [0, 0], majPce := [0, 0],
      minPce := [0, 0], material := [0, 0], kingSquare := [0, 0],
      pList := List.replicate 13 (List.replicate 10 0), pawns := [0, 0, 0] }

/-- board.py `update_materials`: `reset_materials` followed by the rescan of
the pieces array (`scanMaterials`), then `posKey = generate_pos_key(self)`.
The position key only reads `pieces`, `turn`, `enPassant` and `castle`, none
of which this function modifies, so it is computed on `b` directly. -/
def update_materials (hk : HashKeys) (b : BoardState) : BoardState :=
  let a := scanMaterials b.pieces
  { b with pceNum := a.pceNum, bigPce := a.bigPce, majPce := a.majPce,
           minPce := a.minPce, material := a.material,
           kingSquare := a.kingSquare, pList := a.pList, pawns := a.pawns,
           posKey := generate_pos_key hk b }

/-- move.py `Move.mouse_pos_to_120`: `file = x // tileW`, `rank = 7 - y // tileH`,
then `file_rank_to_index(rank * 8 + file)`.  `ts` is the
`Artifacts.fromTileSize` pair; the theorems only use clicks inside the board
(`x / tileW < 8`, `y / tileH < 8`), where Python's `7 - ...` is non-negative
and agrees with `Nat` subtraction. -/
def mouse_pos_to_120 (ts : Nat × Nat) (mousePos : Nat × Nat) : Nat :=
  let file := mousePos.1 / ts.1
  let rank := 7 - mousePos.2 / ts.2
  file_rank_to_index (rank * 8 + file)

/-- move.py `Move.set_from_index_120`: if the clicked square is `EMPTY` the
function returns with no change; otherwise it records the square in
`from120`.  `artifacts.set_from_tile` only writes UI attributes of the
`Artifacts` class (artifacts.py line 405), so the board is returned
untouched on both paths. -/
def set_from_index_120 (ts : Nat × Nat) (mousePos : Nat × Nat)
    (ms : MoveState) (b : BoardState) : MoveState × BoardState :=
  let temp := mouse_pos_to_120 ts mousePos
  if b.pieces.getD temp 0 = 0 then (ms, b)
  else ({ ms with from120 := (temp : Int) }, b)

/-- move.py `Move.set_to_index_120`. -/
def set_to_index_120 (ts : Nat × Nat) (mousePos : Nat × Nat)
    (ms : MoveState) : MoveState :=
  { ms with to120 := (mouse_pos_to_120 ts mousePos : Int) }

/-- move.py `Move.process_pgn`: on even `hisply` prefix the move number
`hisply / 2 + 1` and a dot, then append the uppercase tile enum name of the
destination square and a space, to both `pgnArr` and `pgn`. -/
def process_pgn (ms : MoveState) (b : BoardState) : BoardState :=
  let pgnInstance :=
    (if b.hisply % 2 = 0 then toString (b.hisply / 2 + 1) ++ ". " else "") ++
      tileName ms.to120.toNat ++ " "
  { b with pgnArr := b.pgnArr ++ [pgnInstance], pgn := b.pgn ++ pgnInstance }

/-- move.py `Move.update_history`: pack the move into `move` (from, to,
captured piece, en-passant flag, pawn-start flag, promotion-piece flags and
the always-set castling flag), run `process_pgn`, then store an `Undo`
record carrying the current castle rights, fifty-move clock, en-passant
square and `generate_pos_key` at slot `hisply` and increment `hisply`.
At this point of the program `from120`/`to120` hold playable squares, so the
`Int` fields are read through `toNat`.  The packed word (`moveWord`) is
computed from the move object alone; in the source it is built before the
`process_pgn` call and the `Undo` fields are read after it, which is
equivalent because `process_pgn` only touches the PGN fields. -/
def moveWord (ms : MoveState) : Nat :=
  let f := ms.from120.toNat
  let t := ms.to120.toNat
  let move := f ||| (t <<< 7) ||| (ms.capturedPiece <<< 14)
  let move := if ms.enPassant ≠ 99 then move ||| 0x40000 else move
  let move :=
    if (ms.fromPiece = 1 ∧ RanksBrd.getD f 100 = 1) ∨
        (ms.fromPiece = 7 ∧ RanksBrd.getD f 100 = 6) then
      move ||| 0x80000
    else move
  let move :=
    if (ms.fromPiece = 1 ∧ RanksBrd.getD t 100 = 7) ∨
        (ms.fromPiece = 7 ∧ RanksBrd.getD t 100 = 0) then
      if ms.promPiece = 5 ∨ ms.promPiece = 11 then move ||| 0x100000
      else if ms.promPiece = 2 ∨ ms.promPiece = 8 then move ||| 0x200000
      else if ms.promPiece = 4 ∨ ms.promPiece = 10 then move ||| 0x400000
      else if ms.promPiece = 3 ∨ ms.promPiece = 9 then move ||| 0x800000
      else move
    else move
  move ||| 0x1000000

def update_history (hk : HashKeys) (ms : MoveState) (b : BoardState) :
    BoardState :=
  let b := process_pgn ms b
  let undoObj : Undo :=
    { move := moveWord ms, castle := b.castle, fiftyMoveClock := b.fiftyMoveClock,
      enPassant := b.enPassant, hashKey := generate_pos_key hk b }
  { b with history := b.history.set b.hisply (some undoObj), hisply := b.hisply + 1 }

/-- move.py `Move.reset_move`. -/
def reset_move (ms : MoveState) : MoveState :=
  { ms with from120 := -1, to120 := -1, capturedPiece := 0, fromPiece := 0,
            prom := 0, promPiece := 0 }

/-- move.py `Move.process_move`.  `check_legal_move` is a stub (both branches
`pass`), `menu.play_sound` and the `artifacts.*` calls only touch UI state.
The promotion branches record `prom` and return early without finalising;
otherwise the function runs `update_materials`, `update_history`, resets the
fifty-move clock on pawn moves, flips the turn (`int(not turn)`, i.e. 1 when
the old turn was 0 and 0 otherwise) and resets the move object. -/
def process_move (hk : HashKeys) (ts : Nat × Nat) (mousePos : Nat × Nat)
    (ms : MoveState) (b : BoardState) : MoveState × BoardState :=
  if (mouse_pos_to_120 ts mousePos : Int) = ms.from120 then
    ({ ms with from120 := -1 }, b)
  else
    let ms := set_to_index_120 ts mousePos ms
    let fromPiece := b.pieces.getD ms.from120.toNat 0
    let ms := { ms with fromPiece := fromPiece }
    let b := { b with pieces := b.pieces.set ms.from120.toNat 0 }
    let ms := { ms with capturedPiece := b.pieces.getD ms.to120.toNat 0 }
    let b := { b with pieces := b.pieces.set ms.to120.toNat fromPiece }
    if fromPiece = 1 ∧ RanksBrd.getD ms.to120.toNat 100 = 7 ∧ ms.prom = 0 then
      ({ ms with prom := 1 }, b)
    else if fromPiece = 7 ∧ RanksBrd.getD ms.to120.toNat 100 = 0 ∧ ms.prom = 0 then
      ({ ms with prom := 2 }, b)
    else
      let b := update_materials hk b
      let b := update_history hk ms b
      let b := if fromPiece = 1 ∨ fromPiece = 7 then { b with fiftyMoveClock := 0 } else b
      let b := { b with turn := if b.turn = 0 then 1 else 0 }
      (reset_move ms, b)

/-- move.py `Move.handle_prom`: place the promoted piece, rescan materials,
flip the turn, record history (with the turn already flipped) and reset the
move object. -/
def handle_prom (hk : HashKeys) (ms : MoveState) (b : BoardState)
    (promPiece : Nat) : MoveState × BoardState :=
  let ms := { ms with promPiece := promPiece }
  let b := { b with pieces := (b.pieces.set ms.from120.toNat 0).set ms.to120.toNat promPiece }
  let b := update_materials hk b
  let b := { b with turn := if b.turn = 0 then 1 else 0 }
  let b := update_history hk ms b
  (reset_move ms, b)

/-- move.py `Move.undo_move`: read `history[hisply - 1]` (Python indexes a
2048-element list, so `hisply = 0` reads slot `-1`, i.e. slot 2047); when the
slot holds no record the whole body is skipped.  Otherwise decode the packed
move, restore the board cells (turning a promoted piece back into a pawn of
the side that moved), restore castle/clock/en-passant/posKey from the record,
decrement `hisply` and the clock (floored at 0), flip the turn, rescan
materials and rebuild the PGN from the popped `pgnArr`. -/
def undo_move (hk : HashKeys) (ms : MoveState) (b : BoardState) :
    MoveState × BoardState :=
  let idx := if b.hisply = 0 then 2047 else b.hisply - 1
  match b.history.getD idx none with
  | none => (ms, b)
  | some u =>
    let previousMove := u.move
    let from120 := previousMove &&& 0x7F
    let to120 := (previousMove &&& 0x3F80) >>> 7
    let capturedPiece := (previousMove &&& 0x3C000) >>> 14
    let piece := b.pieces.getD to120 0
    let piece :=
      if previousMove &&& 0xF00000 ≠ 0 ∧ b.turn = 1 then 1
      else if previousMove &&& 0xF00000 ≠ 0 ∧ b.turn = 0 then 7
      else piece
    let b := { b with pieces := (b.pieces.set from120 piece).set to120 capturedPiece }
    let b := { b with castle := u.castle, fiftyMoveClock := u.fiftyMoveClock,
                      enPassant := u.enPassant, posKey := u.hashKey }
    let b := { b with hisply := if 0 < b.hisply then b.hisply - 1 else b.hisply }
    let b := { b with fiftyMoveClock :=
                 if 0 < b.fiftyMoveClock then b.fiftyMoveClock - 1 else b.fiftyMoveClock }
    let b := { b with turn := if b.turn = 0 then 1 else 0 }
    let ms := { ms with prom := 0 }
    let b := update_materials hk b
    let b := { b with pgn := "", pgnArr := b.pgnArr.dropLast }
    let newPgn := (List.range b.hisply).foldl (fun s i => s ++ b.pgnArr.getD i "") ""
    let b := { b with pgn := newPgn }
    (ms, b)

/-- main.py: a move that opens the promotion menu is finalised by the next
click through `Move.handle_prom`; this composition models one finalised
move (plain, or promotion plus piece choice). -/
def apply_move (hk : HashKeys) (ts : Nat × Nat) (mousePos : Nat × Nat)
    (promPiece : Nat) (ms : MoveState) (b : BoardState) :
    MoveState × BoardState :=
  let r := process_move hk ts mousePos ms b
  if r.1.prom ≠ 0 then handle_prom hk r.1 r.2 promPiece else r

/-- Python indexing of the 120-cell ctypes `pieces` array at a possibly
negative index: indices in `[0, 120)` read directly, indices in `[-120, 0)`
wrap to the end of the array, anything else raises `IndexError` (`none`). -/
def pieceAt (ps : List Nat) (tile : Int) : Option Nat :=
  if 0 ≤ tile ∧ tile < 120 then some (ps.getD tile.toNat 0)
  else if -120 ≤ tile ∧ tile < 0 then some (ps.getD (tile + 120).toNat 0)
  else none

/-- The sliding-piece `while` loop of attacks.py `is_attacked` (used verbatim
for bishops, rooks and queens): step by `direction` until the cell is
`OFF_BOARD`; a non-empty cell ends the walk, reporting `threat` exactly when
it holds `target`.  The Python loop always ends within 240 steps (each step
moves `tile` by a non-zero `direction`, and any index outside `[-120, 120)`
raises), so with 250 fuel the recursion is extensionally the Python loop;
`none` is an `IndexError`. -/
def rayWalk (ps : List Nat) (direction : Int) (target : Nat) (threat : String) :
    Int → Nat → Option (Option String)
  | _, 0 => none
  | tile, fuel + 1 =>
    match pieceAt ps tile with
    | none => none
    | some piece =>
      if piece = 100 then some none
      else if piece ≠ 0 then
        if piece = target then some (some threat) else some none
      else rayWalk ps direction target threat (tile + direction) fuel

/-- attacks.py: one non-sliding probe (knight / king loops): report `threat`
when the cell at `square + direction` holds `target`. -/
def probeAt (ps : List Nat) (square : Int) (target : Nat) (threat : String)
    (direction : Int) : Option (Option String) :=
  match pieceAt ps (square + direction) with
  | none => none
  | some piece => some (if piece = target then some threat else none)

/-- attacks.py: run a list of per-direction checks in order, returning the
first threat found (Python `return` inside the `for` loop); `none` is a
propagated `IndexError`. -/
def firstThreat : List Int → (Int → Option (Option String)) →
    Option (Option String)
  | [], _ => some none
  | d :: rest, f =>
    match f d with
    | none => none
    | some (some s) => some (some s)
    | some none => firstThreat rest f

/-- attacks.py `is_attacked`: pawn probes, then knight, bishop, rook, king
and queen checks in source order, each returning a descriptive (truthy)
string, with `False` (here `none`) when nothing attacks the square.  The
outer `Option` models an `IndexError` escaping the function. -/
def is_attacked (square : Int) (ps : List Nat) (turn : Nat) :
    Option (Option String) :=
  let modifier := if turn = 0 then 6 else 0
  let pawnCheck : Option (Option String) :=
    if turn = 0 then
      match pieceAt ps (square + 9), pieceAt ps (square + 11) with
      | some p1, some p2 =>
        some (if p1 = 7 ∨ p2 = 7 then some "Black Pawn Threat" else none)
      | _, _ => none
    else
      match pieceAt ps (square - 9), pieceAt ps (square - 11) with
      | some p1, some p2 =>
        some (if p1 = 1 ∨ p2 = 1 then some "White Pawn Threat" else none)
      | _, _ => none
  match pawnCheck with
  | none => none
  | some (some s) => some (some s)
  | some none =>
  match firstThreat KnightDirection
      (probeAt ps square (2 + modifier) "Knight Threat") with
  | none => none
  | some (some s) => some (some s)
  | some none =>
  match firstThreat BishopDirection
      (fun d => rayWalk ps d (3 + modifier) "Bishop Threat" (square + d) 250) with
  | none => none
  | some (some s) => some (some s)
  | some none =>
  match firstThreat RookDirection
      (fun d => rayWalk ps d (4 + modifier) "Rook Threat" (square + d) 250) with
  | none => none
  | some (some s) => some (some s)
  | some none =>
  match firstThreat (BishopDirection ++ RookDirection)
      (probeAt ps square (6 + modifier) "King Threat") with
  | none => none
  | some (some s) => some (some s)
  | some none =>
  firstThreat (BishopDirection ++ RookDirection)
    (fun d => rayWalk ps d (5 + modifier) "Queen Threat" (square + d) 250)

/-- board.py `check_board.pce_list_assert` (the inner function): what a call
would return.  Python returns `False` on a failed check and falls through
returning `None` (both falsy); the first check `0 > pceNum[pce] >= 10` is the
chained comparison and can never hold. -/
def pce_list_assert (b : BoardState) : Option Bool :=
  match (List.range' 1 12).findSome? (fun pce =>
      if 0 > b.pceNum.getD pce 0 ∧ b.pceNum.getD pce 0 ≥ 10 then some false
      else (List.range (b.pceNum.getD pce 0)).findSome? (fun i =>
        if FilesBrd.getD ((b.pList.getD pce []).getD i 0) 100 = 100 then
          some false
        else none)) with
  | some r => some r
  | none =>
    if b.pceNum.getD 6 0 ≠ 1 ∨ b.pceNum.getD 12 0 ≠ 1 then some false
    else none

/-- board.py line 434: `assert(pce_list_assert)`.  The assert is applied to
the function object itself, not to a call of it; a Python function object is
always truthy, so the assertion passes for every board state. -/
def check_board_plist_assert (_b : BoardState) : Bool :=
  true

/-- The 120-cell pieces array produced by `Board.__init__`: every cell starts
as `OFF_BOARD` (100) and `read_fen(STARTING_POS_FEN)` with
`'rnbqkbnr/pppppppp/8/8/8/8/PPPPPPPP/RNBQKBNR w KQkq - 0 1'` fills the 64
playable cells with the standard starting position (white pieces 1-6 on
ranks 1-2, black pieces 7-12 on ranks 7-8). -/
def startPieces : List Nat :=
  [100, 100, 100, 100, 100, 100, 100, 100, 100, 100,
   100, 100, 100, 100, 100, 100, 100, 100, 100, 100,
   100, 4, 2, 3, 5, 6, 3, 2, 4, 100,
   100, 1, 1, 1, 1, 1, 1, 1, 1, 100,
   100, 0, 0, 0, 0, 0, 0, 0, 0, 100,
   100, 0, 0, 0, 0, 0, 0, 0, 0, 100,
   100, 0, 0, 0, 0, 0, 0, 0, 0, 100,
   100, 0, 0, 0, 0, 0, 0, 0, 0, 100,
   100, 7, 7, 7, 7, 7, 7, 7, 7, 100,
   100, 10, 8, 9, 11, 12, 9, 8, 10, 100,
   100, 100, 100, 100, 100, 100, 100, 100, 100, 100,
   100, 100, 100, 100, 100, 100, 100, 100, 100, 100]

/-- The board object right after `Board.__init__` for the standard starting
position, given hash keys `hk`: turn white, castle 15, no en-passant square,
clocks and history empty, and the aggregates/posKey as set by the
constructor's `update_materials` call. -/
def startBoard (hk : HashKeys) : BoardState :=
  update_materials hk
    { pieces := startPieces, turn := 0, castle := 15, enPassant := 99,
      fiftyMoveClock := 0, kingSquare := [25, 95], hisply := 0,
      pceNum := List.replicate 13 0, bigPce := [0, 0], majPce := [0, 0],
      minPce := [0, 0], material := [0, 0],
      pList := List.replicate 13 (List.replicate 10 0), pawns := [0, 0, 0],
      posKey := 0, history := List.replicate 2048 none, pgnArr := [],
      pgn := "" }

/-! ### Concrete fixtures used by witnesses -/

/-- Zobrist keys all zero: one concrete admissible draw of hashkeys.py's
random keys. -/
def hkZero : HashKeys := ⟨fun _ _ => 0, 0, fun _ => 0⟩

/-- A fresh `Move` object (move.py `Move.__init__`). -/
def msInit : MoveState := ⟨-1, -1, 0, 0, 0, 0, 99⟩

/-- The 120-cell array with all playable squares empty. -/
def playableZero : List Nat :=
  (List.range 64).foldl (fun l i => l.set (file_rank_to_index i) 0)
    (List.replicate 120 100)

/-- A bare board around a given pieces array (empty history, white to move). -/
def mkBoard (ps : List Nat) : BoardState :=
  { pieces := ps, turn := 0, castle := 15, enPassant := 99,
    fiftyMoveClock := 0, kingSquare := [0, 0], hisply := 0,
    pceNum := List.replicate 13 0, bigPce := [0, 0], majPce := [0, 0],
    minPce := [0, 0], material := [0, 0],
    pList := List.replicate 13 (List.replicate 10 0), pawns := [0, 0, 0],
    posKey := 0, history := List.replicate 2048 none, pgnArr := [], pgn := "" }

/-- A board whose piece list fails every check the inner function performs:
one white pawn whose `pList` entry is square 0 (off the board) and zero
kings of either colour. -/
def badPlistBoard : BoardState :=
  { mkBoard playableZero with pceNum := (List.replicate 13 0).set 1 1 }

/-- The C5 failing input: a board with `fiftyMoveClock = 5`, a white knight
on B1 (square 22) and a black pawn on C3 (square 43). -/
def clockBoard : BoardState :=
  { mkBoard ((playableZero.set 22 2).set 43 7) with fiftyMoveClock := 5 }

/-- Move object with the knight on B1 selected. -/
def msKnight : MoveState := { msInit with from120 := 22 }

/-- Move object with the pawn on E2 (padded square 35) selected. -/
def msE2 : MoveState := { msInit with from120 := 35 }

/-- All sentinel (non-playable) cells of the padded array hold `OFF_BOARD`
(true of every board the program builds: writes only target playable
squares). -/
def borderIntact (ps : List Nat) : Prop :=
  ∀ t, t < 120 → FilesBrd.getD t 100 = 100 → ps.getD t 0 = 100

/-- The C3 board: a white rook on F1 (square 26), two squares from the
H-file edge, with every other playable square empty. -/
def rookEdgeBoard : List Nat := playableZero.set 26 4

/-- An empty board except a white pawn on E7 (square 85), one move from
promotion. -/
def bPromBoard : BoardState := mkBoard (playableZero.set 85 1)

/-- Move object with the pawn on E7 selected. -/
def msE7 : MoveState := { msInit with from120 := 85 }

/-- The derived aggregates maintained on the board object: per-piece-type
counts, big/major/minor piece counts, material sums, king squares, piece
lists and the three pawn bitboards. -/
def aggOf (b : BoardState) : Agg :=
  { pceNum := b.pceNum, bigPce := b.bigPce, majPce := b.majPce,
    minPce := b.minPce, material := b.material, kingSquare := b.kingSquare,
    pList := b.pList, pawns := b.pawns }

/-- The maintained aggregates agree with a full rescan of the 120-cell
`pieces` array. -/
def aggConsistent (b : BoardState) : Prop :=
  aggOf b = scanMaterials b.pieces

instance (b : BoardState) : Decidable (aggConsistent b) :=
  inferInstanceAs (Decidable (aggOf b = scanMaterials b.pieces))

/-- main.py: one GUI-driven game operation — a click that plays a move
(finalising with `promPiece` when a promotion menu opens), or an undo
keypress. -/
inductive GuiOp where
  | play (ts mousePos : Nat × Nat) (promPiece : Nat)
  | undo
deriving Repr, DecidableEq

/-- Run one GUI operation on the (move object, board) state. -/
def run_op (hk : HashKeys) (s : MoveState × BoardState) (op : GuiOp) :
    MoveState × BoardState :=
  match op with
  | GuiOp.play ts mousePos promPiece => apply_move hk ts mousePos promPiece s.1 s.2
  | GuiOp.undo => undo_move hk s.1 s.2

/-- Run a sequence of GUI operations. -/
def run_ops (hk : HashKeys) (ops : List GuiOp) (s : MoveState × BoardState) :
    MoveState × BoardState :=
  ops.foldl (run_op hk) s

/-! ### C4: the two square-mapping tables are inverse bijections -/

/-- C4.  For every dense index `d` in 0..63, `map120To64[map64To120[d]] = d`,
and for every playable padded index `p` (a padded square whose `FilesBrd`
entry is not `OFF_BOARD`), `map64To120[map120To64[p]] = p`: the two lookup
tables built by `Board.init_board_maps` are exact inverses on the 64
playable squares. -/
theorem mapping_bijection :
    (∀ d, d < 64 → map120To64.getD (map64To120.getD d 0) 0 = d) ∧
    (∀ p, p < 120 → FilesBrd.getD p 100 ≠ 100 →
      map64To120.getD (map120To64.getD p 0) 0 = p) := by
  decide

/-- Witness for C4 at dense square 28 and padded square 55 (E4). -/
theorem mapping_bijection_witness :
    map120To64.getD (map64To120.getD 28 0) 0 = 28 ∧
    map64To120.getD (map120To64.getD 55 0) 0 = 55 :=
  ⟨mapping_bijection.1 28 (by decide),
   mapping_bijection.2 55 (by decide) (by decide)⟩

/-! ### C7: selection guard in `set_from_index_120` -/

/-- C7.  Selecting with no piece on the clicked square is rejected with no
state change (the move object, including its unset from-square, and the
board are returned unchanged); when the square holds a piece the only
change is `from120` being set to that square. -/
theorem selection_guard (ts mousePos : Nat × Nat) (ms : MoveState)
    (b : BoardState) :
    (b.pieces.getD (mouse_pos_to_120 ts mousePos) 0 = 0 →
      set_from_index_120 ts mousePos ms b = (ms, b)) ∧
    (b.pieces.getD (mouse_pos_to_120 ts mousePos) 0 ≠ 0 →
      set_from_index_120 ts mousePos ms b =
        ({ ms with from120 := (mouse_pos_to_120 ts mousePos : Int) }, b)) := by
  constructor <;> intro h
  · simp only [set_from_index_120]
    rw [if_pos h]
  · simp only [set_from_index_120]
    rw [if_neg h]

/-- Witness for C7: with 80-pixel tiles on the starting position, a click on
the empty square E4 changes nothing, and a click on A1 (white rook) sets
`from120` to 21. -/
theorem selection_guard_witness :
    set_from_index_120 (80, 80) (320, 320) msInit (mkBoard startPieces) =
      (msInit, mkBoard startPieces) ∧
    set_from_index_120 (80, 80) (0, 560) msInit (mkBoard startPieces) =
      ({ msInit with from120 := (21 : Int) }, mkBoard startPieces) := by
  constructor
  · exact (selection_guard (80, 80) (320, 320) msInit (mkBoard startPieces)).1
      (by decide)
  · have h := (selection_guard (80, 80) (0, 560) msInit (mkBoard startPieces)).2
      (by decide)
    have hsq : mouse_pos_to_120 (80, 80) (0, 560) = 21 := by decide
    rw [hsq] at h
    exact h

/-! ### C8: undo with empty history is a no-op -/

/-- C8.  When `hisply = 0` (so Python reads `history[-1]`, the last slot of
the 2048-element list) and that slot holds no record, `undo_move` returns the
move object and every field of the board unchanged — a no-op, not an
error. -/
theorem undo_empty_history (hk : HashKeys) (ms : MoveState) (b : BoardState)
    (h0 : b.hisply = 0) (hrec : b.history.getD 2047 none = none) :
    undo_move hk ms b = (ms, b) := by
  have hrec' : b.history[2047]?.getD none = none := by
    rw [← List.getD_eq_getElem?_getD]
    exact hrec
  simp [undo_move, h0, hrec']

/-- Witness for C8 on a fresh board. -/
theorem undo_empty_history_witness :
    (mkBoard startPieces).hisply = 0 ∧
    (mkBoard startPieces).history.getD 2047 none = none ∧
    undo_move hkZero msInit (mkBoard startPieces) =
      (msInit, mkBoard startPieces) :=
  ⟨rfl, by decide,
   undo_empty_history hkZero msInit (mkBoard startPieces) rfl (by decide)⟩

/-! ### C10: the piece-list validation at the end of `check_board` -/

/-- C10.  The final assertion of `check_board` is `assert(pce_list_assert)`:
it asserts the inner function object itself, which Python always treats as
truthy, so the check passes for every board state — even for a board on
which actually calling `pce_list_assert` would report a failure (an
off-board `pList` entry and king counts different from 1). -/
theorem plist_assert_vacuous :
    (∀ b : BoardState, check_board_plist_assert b = true) ∧
    pce_list_assert badPlistBoard = some false := by
  exact ⟨fun _ => rfl, by decide⟩

/-! ### C5: the fifty-move clock is not reset on captures -/

/-- C5 (failing input): with 80-pixel tiles, clicking C3 makes the white
knight capture the black pawn there — `process_move` finalises the move
(the turn flips, the capture is recorded in the history word) — yet the
fifty-move clock keeps its old value 5 instead of being reset to 0: the
reset at move.py line 195 only fires for pawn moves, and the source comment
"Also need to handle piece capture" records the missing case. -/
theorem capture_keeps_clock :
    (process_move hkZero (80, 80) (160, 400) msKnight clockBoard).2.fiftyMoveClock
        = 5 ∧
    (process_move hkZero (80, 80) (160, 400) msKnight clockBoard).2.turn = 1 ∧
    clockBoard.pieces.getD (mouse_pos_to_120 (80, 80) (160, 400)) 0 = 7 := by
  decide

/-! ### C6: the concrete e2-e4 scenario -/

/-- C6 (counterexample).  From the starting position, playing e2-e4 with
80-pixel tiles (the click `(320, 320)` is file 4, rank 3, i.e. E4) appends
the PGN token `"1. E4 "` — `process_pgn` prefixes the move number on even
`hisply` and uses the uppercase `Tiles` enum name — which is not the claimed
token `"e4 "`. -/
theorem e2e4_pgn_counterexample :
    (process_move hkZero (80, 80) (320, 320) msE2 (startBoard hkZero)).2.pgnArr
        = ["1. E4 "] ∧
    (["1. E4 "] : List String) ≠ ["e4 "] := by
  decide

/-- C6 (amended).  From the starting position, e2-e4 via `process_move`
yields a finalised move with no capture (the captured-piece field of the
stored history word is `EMPTY`), the fifty-move clock reset to 0, the turn
flipped to black, and the appended PGN token `"1. E4 "`. -/
theorem e2e4_scenario :
    ((process_move hkZero (80, 80) (320, 320) msE2 (startBoard hkZero)).2.history.getD 0 none).map
        (fun u => (u.move &&& 0x3C000) >>> 14) = some 0 ∧
    (process_move hkZero (80, 80) (320, 320) msE2 (startBoard hkZero)).2.fiftyMoveClock = 0 ∧
    (process_move hkZero (80, 80) (320, 320) msE2 (startBoard hkZero)).2.turn = 1 ∧
    (process_move hkZero (80, 80) (320, 320) msE2 (startBoard hkZero)).2.pgnArr
        = ["1. E4 "] := by
  decide

/-! ### Bit-level helper lemmas -/

theorem lsbIdx_odd {b : Nat} (h : b % 2 = 1) : lsbIdx b = 0 := by
  rw [lsbIdx]
  have : b ≠ 0 := by omega
  simp [this, h]

theorem lsbIdx_even {b : Nat} (h0 : b ≠ 0) (h : b % 2 = 0) :
    lsbIdx b = lsbIdx (b / 2) + 1 := by
  rw [lsbIdx]
  simp [h0, h]

theorem odd_xor_even (m n : Nat) : (2 * m + 1) ^^^ (2 * n) = 2 * (m ^^^ n) + 1 := by
  have := Nat.xor_bit true m false n
  simpa [Nat.bit_true, Nat.bit_false] using this

theorem even_xor_odd (m n : Nat) : (2 * m) ^^^ (2 * n + 1) = 2 * (m ^^^ n) + 1 := by
  have := Nat.xor_bit false m true n
  simpa [Nat.bit_true, Nat.bit_false] using this

theorem odd_and_even (m n : Nat) : (2 * m + 1) &&& (2 * n) = 2 * (m &&& n) := by
  have := Nat.land_bit true m false n
  simpa [Nat.bit_true, Nat.bit_false] using this

theorem even_and_odd (m n : Nat) : (2 * m) &&& (2 * n + 1) = 2 * (m &&& n) := by
  have := Nat.land_bit false m true n
  simpa [Nat.bit_true, Nat.bit_false] using this

/-- Structural facts about a positive natural `b` and `b - 1`: the xor is the
mask of the least significant set bit and everything below it, the and
clears that bit, and `lsbIdx` really is the least set bit. -/
theorem lsb_facts : ∀ b : Nat, 0 < b →
    b ^^^ (b - 1) = 2 ^ (lsbIdx b + 1) - 1 ∧
    b &&& (b - 1) = b - 2 ^ lsbIdx b ∧
    2 ^ lsbIdx b ≤ b ∧
    Nat.testBit b (lsbIdx b) = true ∧
    (∀ j < lsbIdx b, Nat.testBit b j = false) := by
  intro b
  induction b using Nat.strong_induction_on with
  | _ b ih =>
    intro hb
    by_cases hodd : b % 2 = 1
    · obtain ⟨c, rfl⟩ : ∃ c, b = 2 * c + 1 := ⟨b / 2, by omega⟩
      have hl : lsbIdx (2 * c + 1) = 0 := lsbIdx_odd (by omega)
      rw [hl]
      have hsub : 2 * c + 1 - 1 = 2 * c := by omega
      rw [hsub]
      refine ⟨?_, ?_, ?_, ?_, ?_⟩
      · rw [odd_xor_even, Nat.xor_self]
        rfl
      · rw [odd_and_even, Nat.and_self]
        omega
      · simp only [Nat.pow_zero]
        omega
      · simp [Nat.testBit_zero]
        omega
      · intro j hj; omega
    · obtain ⟨c, rfl⟩ : ∃ c, b = 2 * c := ⟨b / 2, by omega⟩
      have hcpos : 0 < c := by omega
      have hdiv : 2 * c / 2 = c := by omega
      have hl : lsbIdx (2 * c) = lsbIdx c + 1 := by
        rw [lsbIdx_even (by omega) (by omega), hdiv]
      obtain ⟨hx, ha, hle, ht, hlow⟩ := ih c (by omega) hcpos
      rw [hl]
      have hsub : 2 * c - 1 = 2 * (c - 1) + 1 := by omega
      rw [hsub]
      refine ⟨?_, ?_, ?_, ?_, ?_⟩
      · rw [even_xor_odd]
        rw [hx, Nat.pow_succ]
        have : (0:Nat) < 2 ^ (lsbIdx c + 1) := Nat.pos_pow_of_pos _ (by omega)
        rw [Nat.pow_succ] at this
        omega
      · rw [even_and_odd, ha, Nat.pow_succ]
        omega
      · rw [Nat.pow_succ]
        omega
      · show Nat.testBit (2 * c) (Nat.succ (lsbIdx c)) = true
        rw [Nat.testBit_succ, hdiv]
        exact ht
      · intro j hj
        cases j with
        | zero =>
          simp [Nat.testBit_zero]
        | succ j' =>
          show Nat.testBit (2 * c) (Nat.succ j') = false
          rw [Nat.testBit_succ, hdiv]
          exact hlow j' (by omega)

/-- The De Bruijn style fold of `pop_bit` decodes every one of the 64
possible low-bit masks to the right index through `BitTable`. -/
theorem bittable_magic : ∀ k, k < 64 →
    BitTable.getD (((((2 ^ (k + 1) - 1) &&& 0xffffffff) ^^^
      ((2 ^ (k + 1) - 1) >>> 32)) * 0x783a9b23 % 4294967296) >>> 26) 0 = k := by
  decide

/-! ### C9: `pop_bit` correctness on non-zero 64-bit bitboards -/

/-- C9.  For every non-zero 64-bit bitboard `b`, `pop_bit b` returns the
dense index of the least significant set bit of `b` (the bit that is set
while all lower bits are clear) together with `b` with that bit cleared. -/
theorem pop_bit_correct (b : Nat) (hpos : 0 < b) (hlt : b < 2 ^ 64) :
    Nat.testBit b (lsbIdx b) = true ∧
    (∀ j < lsbIdx b, Nat.testBit b j = false) ∧
    (pop_bit b).1 = lsbIdx b ∧
    (pop_bit b).2 = b - 2 ^ lsbIdx b := by
  obtain ⟨hx, ha, hle, ht, hlow⟩ := lsb_facts b hpos
  have hk : lsbIdx b < 64 := by
    by_contra hge
    have : (2:Nat) ^ 64 ≤ 2 ^ lsbIdx b := Nat.pow_le_pow_right (by omega) (by omega)
    omega
  refine ⟨ht, hlow, ?_, ?_⟩
  · show BitTable.getD (((((b ^^^ (b - 1)) &&& 0xffffffff) ^^^
        ((b ^^^ (b - 1)) >>> 32)) * 0x783a9b23 % 4294967296) >>> 26) 0 = lsbIdx b
    rw [hx]
    exact bittable_magic (lsbIdx b) hk
  · exact ha

/-- Witness for C9 at the bitboard 40 (binary 101000, least set bit 3). -/
theorem pop_bit_correct_witness :
    0 < 40 ∧ 40 < 2 ^ 64 ∧ Nat.testBit 40 (lsbIdx 40) = true ∧
    (∀ j < lsbIdx 40, Nat.testBit 40 j = false) ∧
    (pop_bit 40).1 = lsbIdx 40 ∧ (pop_bit 40).2 = 40 - 2 ^ lsbIdx 40 :=
  ⟨by decide, by decide, pop_bit_correct 40 (by decide) (by decide)⟩

/-! ### C3: sliding-attack rays stop at the padded border -/

/-- Along every bishop/rook ray from a playable square, some step `j ≤ 8`
leaves the playable region while still being inside the 120-cell array, and
all earlier steps are playable cells (finite check over the 64 squares and
8 directions). -/
theorem ray_hits_border : ∀ s ∈ map64To120, ∀ d ∈ BishopDirection ++ RookDirection,
    ∃ j ∈ List.range 9, 1 ≤ j ∧
      (0 ≤ (s : Int) + j * d ∧ (s : Int) + j * d < 120 ∧
        FilesBrd.getD ((s : Int) + j * d).toNat 100 = 100) ∧
      ∀ i ∈ List.range j, 1 ≤ i →
        (0 ≤ (s : Int) + i * d ∧ (s : Int) + i * d < 120 ∧
          FilesBrd.getD ((s : Int) + i * d).toNat 100 ≠ 100) := by
  decide

/-- Fuel-generic run of the sliding walk: if the first `n` cells along the
ray are empty and cell `n` is non-empty, the walk stops there and reports a
threat exactly when that cell holds the target piece (and never when it is
the `OFF_BOARD` sentinel). -/
theorem rayWalk_run (ps : List Nat) (d : Int) (target : Nat) (threat : String) :
    ∀ n, ∀ tile : Int,
      (∀ i : Nat, i < n → pieceAt ps (tile + i * d) = some 0) →
      ∀ p, pieceAt ps (tile + n * d) = some p → p ≠ 0 →
      ∀ fuel, n < fuel →
      rayWalk ps d target threat tile fuel =
        some (if p = 100 then none
              else if p = target then some threat else none) := by
  intro n
  induction n with
  | zero =>
    intro tile _ p hp hp0 fuel hfuel
    obtain ⟨f, rfl⟩ : ∃ f, fuel = f + 1 := ⟨fuel - 1, by omega⟩
    have hp' : pieceAt ps tile = some p := by
      simpa using hp
    rw [rayWalk, hp']
    by_cases h100 : p = 100
    · simp [h100]
    · by_cases ht : p = target
      · subst ht
        simp [h100, hp0]
      · simp [h100, hp0, ht]
  | succ n ihn =>
    intro tile hemp p hp hp0 fuel hfuel
    obtain ⟨f, rfl⟩ : ∃ f, fuel = f + 1 := ⟨fuel - 1, by omega⟩
    have h0 : pieceAt ps tile = some 0 := by
      simpa using hemp 0 (by omega)
    rw [rayWalk, h0]
    simp only [reduceIte]
    have := ihn (tile + d)
      (fun i hi => by
        have := hemp (i + 1) (by omega)
        have harith : tile + d + i * d = tile + (i + 1 : Nat) * d := by
          push_cast
          ring
        rw [harith]
        exact this)
      p
      (by
        have harith : tile + d + n * d = tile + (n + 1 : Nat) * d := by
          push_cast
          ring
        rw [harith]
        exact hp)
      hp0 f (by omega)
    simpa using this

/-- C3.  First conjunct: on any board with an intact sentinel border, every
bishop/rook/queen sliding walk of `is_attacked` from a playable square stops
within at most 8 steps at the first non-empty cell — a piece or the
`OFF_BOARD` sentinel — never crossing the border into wrapped coordinates
(every inspected index is a genuine in-range cell, and the walk reports a
threat exactly when the stopping cell holds the target piece, never for the
sentinel).  Second conjunct: with black to move, the white rook on F1 is
reported attacking H1 (square 28, just inside the edge, with G1 empty).
Third conjunct: A2 (square 31), which is adjacent to rank 1 in raw memory
order past the edge sentinel, is not attacked — the ray does not wrap. -/
theorem attack_ray_edge_termination :
    (∀ ps : List Nat, borderIntact ps →
      ∀ s ∈ map64To120, ∀ d ∈ BishopDirection ++ RookDirection,
        ∀ target : Nat, ∀ threat : String,
        ∃ j : Nat, 1 ≤ j ∧ j ≤ 8 ∧
          (∀ i : Nat, 1 ≤ i → i < j → pieceAt ps ((s : Int) + i * d) = some 0) ∧
          ∃ p, pieceAt ps ((s : Int) + j * d) = some p ∧ p ≠ 0 ∧
            rayWalk ps d target threat ((s : Int) + d) 250 =
              some (if p = 100 then none
                    else if p = target then some threat else none)) ∧
    is_attacked 28 rookEdgeBoard 1 = some (some "Rook Threat") ∧
    is_attacked 31 rookEdgeBoard 1 = some none := by
  refine ⟨?_, by decide, by decide⟩
  intro ps hbi s hs d hd target threat
  obtain ⟨J, hJr, hJ1, ⟨hJ0, hJlt, hJborder⟩, hplay⟩ := ray_hits_border s hs d hd
  have hJ8 : J ≤ 8 := by
    have := List.mem_range.mp hJr
    omega
  have hsome : ∀ i : Nat, 1 ≤ i → i ≤ J →
      pieceAt ps ((s : Int) + i * d) = some (ps.getD ((s : Int) + i * d).toNat 0) := by
    intro i h1 hle
    by_cases hiJ : i = J
    · subst hiJ
      unfold pieceAt
      rw [if_pos ⟨hJ0, hJlt⟩]
    · obtain ⟨h0, hlt, _⟩ := hplay i (List.mem_range.mpr (by omega)) h1
      unfold pieceAt
      rw [if_pos ⟨h0, hlt⟩]
  have hQJ : pieceAt ps ((s : Int) + J * d) = some 100 := by
    rw [hsome J hJ1 (le_refl J)]
    have htn : ((s : Int) + J * d).toNat < 120 := by omega
    rw [hbi _ htn hJborder]
  have hex : ∃ j : Nat, 1 ≤ j ∧ pieceAt ps ((s : Int) + j * d) ≠ some 0 :=
    ⟨J, hJ1, by rw [hQJ]; intro hcon; exact absurd (Option.some.inj hcon) (by omega)⟩
  classical
  obtain ⟨h1j, hne⟩ := Nat.find_spec hex
  have hjle : Nat.find hex ≤ J := Nat.find_min' hex
    ⟨hJ1, by rw [hQJ]; intro hcon; exact absurd (Option.some.inj hcon) (by omega)⟩
  have hempty : ∀ i : Nat, 1 ≤ i → i < Nat.find hex →
      pieceAt ps ((s : Int) + i * d) = some 0 := by
    intro i h1 hilt
    have hmin := Nat.find_min hex hilt
    by_contra hcon
    exact hmin ⟨h1, hcon⟩
  have hp := hsome (Nat.find hex) h1j hjle
  refine ⟨Nat.find hex, h1j, by omega, hempty,
    ps.getD ((s : Int) + (Nat.find hex) * d).toNat 0, hp, ?_, ?_⟩
  · intro hzero
    rw [hzero] at hp
    exact hne hp
  · have harith1 : ∀ i : Nat, (s : Int) + d + i * d = (s : Int) + (i + 1 : Nat) * d := by
      intro i
      push_cast
      ring
    have hcast : ((Nat.find hex - 1 : Nat) : Int) = (Nat.find hex : Int) - 1 := by
      omega
    have harith2 : (s : Int) + d + ((Nat.find hex - 1 : Nat) : Int) * d
        = (s : Int) + (Nat.find hex : Nat) * d := by
      rw [hcast]
      ring
    have := rayWalk_run ps d target threat (Nat.find hex - 1) ((s : Int) + d)
      (fun i hi => by
        rw [harith1 i]
        exact hempty (i + 1) (by omega) (by omega))
      (ps.getD ((s : Int) + (Nat.find hex) * d).toNat 0)
      (by rw [harith2]; exact hp)
      (by intro hzero; rw [hzero] at hp; exact hne hp)
      250 (by omega)
    exact this

/-- Witness for C3: the general ray statement instantiated on the rook-edge
board at square H1 (28), direction `+1` towards the edge, target the white
rook (4). -/
theorem attack_ray_edge_termination_witness :
    ∃ j : Nat, 1 ≤ j ∧ j ≤ 8 ∧
      (∀ i : Nat, 1 ≤ i → i < j → pieceAt rookEdgeBoard ((28 : Int) + i * 1) = some 0) ∧
      ∃ p, pieceAt rookEdgeBoard ((28 : Int) + j * 1) = some p ∧ p ≠ 0 ∧
        rayWalk rookEdgeBoard 1 4 "Rook Threat" ((28 : Int) + 1) 250 =
          some (if p = 100 then none
                else if p = 4 then some "Rook Threat" else none) :=
  attack_ray_edge_termination.1 rookEdgeBoard
    (by unfold borderIntact; decide) 28 (by decide) 1 (by decide) 4 "Rook Threat"

/-! ### Decoding the packed move word -/

theorem lor_shiftLeft_distrib (x y k : Nat) :
    (x ||| y) <<< k = x <<< k ||| y <<< k := by
  apply Nat.eq_of_testBit_eq
  intro i
  simp only [Nat.testBit_shiftLeft, Nat.testBit_lor]
  cases Nat.decLe k i with
  | isTrue h => simp [h]
  | isFalse h => simp [h]

theorem decode_mod {a : Nat} (b : Nat) {k : Nat} (ha : a < 2 ^ k) :
    (a ||| b <<< k) % 2 ^ k = a := by
  apply Nat.eq_of_testBit_eq
  intro i
  simp only [Nat.testBit_mod_two_pow, Nat.testBit_lor, Nat.testBit_shiftLeft]
  by_cases h : i < k
  · simp [h, Nat.not_le_of_lt h]
  · have : a.testBit i = false :=
      Nat.testBit_lt_two_pow (lt_of_lt_of_le ha (Nat.pow_le_pow_right (by omega) (by omega)))
    simp [h, this]

theorem decode_shift {a : Nat} (b : Nat) {k : Nat} (ha : a < 2 ^ k) :
    (a ||| b <<< k) >>> k = b := by
  apply Nat.eq_of_testBit_eq
  intro i
  simp only [Nat.testBit_shiftRight, Nat.testBit_lor, Nat.testBit_shiftLeft]
  have ha' : a.testBit (k + i) = false :=
    Nat.testBit_lt_two_pow (lt_of_lt_of_le ha (Nat.pow_le_pow_right (by omega) (by omega)))
  simp [ha', Nat.le_add_right, Nat.add_sub_cancel_left]

theorem and_shiftLeft_shiftRight (x m k : Nat) :
    (x &&& m <<< k) >>> k = (x >>> k) &&& m := by
  apply Nat.eq_of_testBit_eq
  intro i
  simp only [Nat.testBit_shiftRight, Nat.testBit_land, Nat.testBit_shiftLeft]
  simp [Nat.le_add_right, Nat.add_sub_cancel_left]

theorem and_shiftLeft_eq (x m k : Nat) :
    x &&& (m <<< k) = ((x >>> k) &&& m) <<< k := by
  apply Nat.eq_of_testBit_eq
  intro i
  simp only [Nat.testBit_land, Nat.testBit_shiftLeft, Nat.testBit_shiftRight]
  by_cases h : k ≤ i
  · simp [h, Nat.add_sub_cancel' h]
  · simp [h]

/-- The flat or-chain built by `update_history` reassociated into nested
low-bits-first form. -/
theorem move_nest (f t c e s pb : Nat) :
    f ||| t <<< 7 ||| c <<< 14 ||| e <<< 18 ||| s <<< 19 ||| pb <<< 20 ||| 1 <<< 24
      = f ||| (t ||| (c ||| (e ||| (s ||| (pb ||| 1 <<< 4) <<< 1) <<< 1) <<< 4) <<< 7) <<< 7 := by
  simp only [lor_shiftLeft_distrib, ← Nat.shiftLeft_add, Nat.lor_assoc]

/-- Decoding the packed move word with the masks `undo_move` uses: the from
square, to square and captured-piece fields come back unchanged, and the
promoted-piece test is non-zero exactly when a promotion flag was packed. -/
theorem move_decode (f t c e s pb : Nat) (hf : f < 128) (ht : t < 128)
    (hc : c < 16) (he : e ≤ 1) (hs : s ≤ 1) (hpb : pb < 16) :
    (f ||| t <<< 7 ||| c <<< 14 ||| e <<< 18 ||| s <<< 19 ||| pb <<< 20 ||| 1 <<< 24) &&& 0x7F = f ∧
    ((f ||| t <<< 7 ||| c <<< 14 ||| e <<< 18 ||| s <<< 19 ||| pb <<< 20 ||| 1 <<< 24) &&& 0x3F80) >>> 7 = t ∧
    ((f ||| t <<< 7 ||| c <<< 14 ||| e <<< 18 ||| s <<< 19 ||| pb <<< 20 ||| 1 <<< 24) &&& 0x3C000) >>> 14 = c ∧
    ((f ||| t <<< 7 ||| c <<< 14 ||| e <<< 18 ||| s <<< 19 ||| pb <<< 20 ||| 1 <<< 24) &&& 0xF00000 = 0 ↔ pb = 0) := by
  rw [move_nest]
  set R1 := t ||| (c ||| (e ||| (s ||| (pb ||| 1 <<< 4) <<< 1) <<< 1) <<< 4) <<< 7 with hR1
  have hM7 : (f ||| R1 <<< 7) >>> 7 = R1 := decode_shift R1 (by omega)
  have h1 : (f ||| R1 <<< 7) &&& 0x7F = f := by
    have : (0x7F : Nat) = 2 ^ 7 - 1 := by norm_num
    rw [this, Nat.and_pow_two_sub_one_eq_mod]
    exact decode_mod R1 (by omega)
  set R2 := c ||| (e ||| (s ||| (pb ||| 1 <<< 4) <<< 1) <<< 1) <<< 4 with hR2
  have hM14 : (f ||| R1 <<< 7) >>> 14 = R2 := by
    have : (14 : Nat) = 7 + 7 := by norm_num
    rw [this, Nat.shiftRight_add, hM7, hR1]
    exact decode_shift _ (by omega)
  have h2 : ((f ||| R1 <<< 7) &&& 0x3F80) >>> 7 = t := by
    have hmask : (0x3F80 : Nat) = 0x7F <<< 7 := by decide
    rw [hmask, and_shiftLeft_shiftRight, hM7, hR1]
    have : (0x7F : Nat) = 2 ^ 7 - 1 := by norm_num
    rw [this, Nat.and_pow_two_sub_one_eq_mod]
    exact decode_mod _ (by omega)
  have h3 : ((f ||| R1 <<< 7) &&& 0x3C000) >>> 14 = c := by
    have hmask : (0x3C000 : Nat) = 0xF <<< 14 := by decide
    rw [hmask, and_shiftLeft_shiftRight, hM14, hR2]
    have : (0xF : Nat) = 2 ^ 4 - 1 := by norm_num
    rw [this, Nat.and_pow_two_sub_one_eq_mod]
    exact decode_mod _ (by omega)
  have hM20 : (f ||| R1 <<< 7) >>> 20 = pb ||| 1 <<< 4 := by
    have h20 : (20 : Nat) = 14 + 4 + 1 + 1 := by norm_num
    rw [h20, Nat.shiftRight_add, Nat.shiftRight_add, Nat.shiftRight_add, hM14, hR2]
    rw [decode_shift _ (by omega : c < 2 ^ 4)]
    rw [decode_shift _ (by omega : e < 2 ^ 1)]
    rw [decode_shift _ (by omega : s < 2 ^ 1)]
  have h4 : (f ||| R1 <<< 7) &&& 0xF00000 = 0 ↔ pb = 0 := by
    have hmask : (0xF00000 : Nat) = 0xF <<< 20 := by decide
    rw [hmask, and_shiftLeft_eq, hM20]
    have : (0xF : Nat) = 2 ^ 4 - 1 := by norm_num
    rw [this, Nat.and_pow_two_sub_one_eq_mod, decode_mod _ (by omega : pb < 2 ^ 4)]
    rw [Nat.shiftLeft_eq]
    constructor
    · intro h
      rcases Nat.mul_eq_zero.mp h with h' | h'
      · exact h'
      · exact absurd h' (by norm_num)
    · intro h
      rw [h]
  exact ⟨h1, h2, h3, h4⟩

/-- `move_decode` specialised to the flat numeral word with the en-passant
and pawn-start flags both set (and no promotion flag). -/
theorem move_decode_11 (f t c : Nat) (hf : f < 128) (ht : t < 128) (hc : c < 16) :
    (f ||| t <<< 7 ||| c <<< 14 ||| 262144 ||| 524288 ||| 16777216) &&& 127 = f ∧
    ((f ||| t <<< 7 ||| c <<< 14 ||| 262144 ||| 524288 ||| 16777216) &&& 16256) >>> 7 = t ∧
    ((f ||| t <<< 7 ||| c <<< 14 ||| 262144 ||| 524288 ||| 16777216) &&& 245760) >>> 14 = c ∧
    (f ||| t <<< 7 ||| c <<< 14 ||| 262144 ||| 524288 ||| 16777216) &&& 15728640 = 0 := by
  have h := move_decode f t c 1 1 0 hf ht hc (by omega) (by omega) (by omega)
  simp only [show (1 : Nat) <<< 18 = 262144 from by decide,
    show (1 : Nat) <<< 19 = 524288 from by decide,
    show (1 : Nat) <<< 24 = 16777216 from by decide,
    Nat.zero_shiftLeft, Nat.or_zero] at h
  exact ⟨h.1, h.2.1, h.2.2.1, h.2.2.2.mpr trivial⟩

/-- `move_decode` for the word with only the en-passant flag. -/
theorem move_decode_10 (f t c : Nat) (hf : f < 128) (ht : t < 128) (hc : c < 16) :
    (f ||| t <<< 7 ||| c <<< 14 ||| 262144 ||| 16777216) &&& 127 = f ∧
    ((f ||| t <<< 7 ||| c <<< 14 ||| 262144 ||| 16777216) &&& 16256) >>> 7 = t ∧
    ((f ||| t <<< 7 ||| c <<< 14 ||| 262144 ||| 16777216) &&& 245760) >>> 14 = c ∧
    (f ||| t <<< 7 ||| c <<< 14 ||| 262144 ||| 16777216) &&& 15728640 = 0 := by
  have h := move_decode f t c 1 0 0 hf ht hc (by omega) (by omega) (by omega)
  simp only [show (1 : Nat) <<< 18 = 262144 from by decide,
    show (1 : Nat) <<< 24 = 16777216 from by decide,
    Nat.zero_shiftLeft, Nat.or_zero] at h
  exact ⟨h.1, h.2.1, h.2.2.1, h.2.2.2.mpr trivial⟩

/-- `move_decode` for the word with only the pawn-start flag. -/
theorem move_decode_01 (f t c : Nat) (hf : f < 128) (ht : t < 128) (hc : c < 16) :
    (f ||| t <<< 7 ||| c <<< 14 ||| 524288 ||| 16777216) &&& 127 = f ∧
    ((f ||| t <<< 7 ||| c <<< 14 ||| 524288 ||| 16777216) &&& 16256) >>> 7 = t ∧
    ((f ||| t <<< 7 ||| c <<< 14 ||| 524288 ||| 16777216) &&& 245760) >>> 14 = c ∧
    (f ||| t <<< 7 ||| c <<< 14 ||| 524288 ||| 16777216) &&& 15728640 = 0 := by
  have h := move_decode f t c 0 1 0 hf ht hc (by omega) (by omega) (by omega)
  simp only [show (1 : Nat) <<< 19 = 524288 from by decide,
    show (1 : Nat) <<< 24 = 16777216 from by decide,
    Nat.zero_shiftLeft, Nat.or_zero] at h
  exact ⟨h.1, h.2.1, h.2.2.1, h.2.2.2.mpr trivial⟩

/-- `move_decode` for the word with neither flag. -/
theorem move_decode_00 (f t c : Nat) (hf : f < 128) (ht : t < 128) (hc : c < 16) :
    (f ||| t <<< 7 ||| c <<< 14 ||| 16777216) &&& 127 = f ∧
    ((f ||| t <<< 7 ||| c <<< 14 ||| 16777216) &&& 16256) >>> 7 = t ∧
    ((f ||| t <<< 7 ||| c <<< 14 ||| 16777216) &&& 245760) >>> 14 = c ∧
    (f ||| t <<< 7 ||| c <<< 14 ||| 16777216) &&& 15728640 = 0 := by
  have h := move_decode f t c 0 0 0 hf ht hc (by omega) (by omega) (by omega)
  simp only [show (1 : Nat) <<< 24 = 16777216 from by decide,
    Nat.zero_shiftLeft, Nat.or_zero] at h
  exact ⟨h.1, h.2.1, h.2.2.1, h.2.2.2.mpr trivial⟩

/-! ### List update lemmas for the pieces array -/

/-- The cells written by apply (from := 0 / promoted value, to := the moving
piece) are restored by undo writing back the original from/to contents. -/
theorem set_set_restore {P Q : List Nat} {f t : Nat}
    (hlen : Q.length = P.length) (hf : f < P.length) (ht : t < P.length)
    (hft : f ≠ t)
    (hQ : ∀ i, i ≠ f → i ≠ t → Q[i]? = P[i]?) :
    (Q.set f (P.getD f 0)).set t (P.getD t 0) = P := by
  apply List.ext_getElem?
  intro n
  by_cases hnt : n = t
  · subst hnt
    rw [List.getElem?_set_self (by rw [List.length_set, hlen]; exact ht)]
    rw [List.getD_eq_getElem?_getD]
    have := List.getElem?_eq_getElem ht
    rw [this]
    rfl
  · rw [List.getElem?_set_ne (by omega)]
    by_cases hnf : n = f
    · subst hnf
      rw [List.getElem?_set_self (by rw [hlen]; exact hf)]
      rw [List.getD_eq_getElem?_getD]
      have := List.getElem?_eq_getElem hf
      rw [this]
      rfl
    · rw [List.getElem?_set_ne (by omega)]
      exact hQ n hnf hnt

theorem getD_set_self {l : List Nat} {i : Nat} (h : i < l.length) (a : Nat) :
    (l.set i a).getD i 0 = a := by
  rw [List.getD_eq_getElem?_getD, List.getElem?_set_self h]
  rfl

theorem getD_set_ne {l : List Nat} {i j : Nat} (h : i ≠ j) (a : Nat) :
    (l.set i a).getD j 0 = l.getD j 0 := by
  rw [List.getD_eq_getElem?_getD, List.getElem?_set_ne h, ← List.getD_eq_getElem?_getD]

/-- `generate_pos_key` only reads `pieces`, `turn`, `enPassant` and
`castle`. -/
theorem generate_pos_key_congr (hk : HashKeys) {b1 b2 : BoardState}
    (hp : b1.pieces = b2.pieces) (ht : b1.turn = b2.turn)
    (he : b1.enPassant = b2.enPassant) (hc : b1.castle = b2.castle) :
    generate_pos_key hk b1 = generate_pos_key hk b2 := by
  simp only [generate_pos_key, hp, ht, he, hc]

/-! ### Projection lemmas: which fields each operation touches -/

theorem update_materials_pieces (hk : HashKeys) (b : BoardState) :
    (update_materials hk b).pieces = b.pieces := rfl

theorem update_materials_turn (hk : HashKeys) (b : BoardState) :
    (update_materials hk b).turn = b.turn := rfl

theorem update_materials_castle (hk : HashKeys) (b : BoardState) :
    (update_materials hk b).castle = b.castle := rfl

theorem update_materials_enPassant (hk : HashKeys) (b : BoardState) :
    (update_materials hk b).enPassant = b.enPassant := rfl

theorem update_materials_fiftyMoveClock (hk : HashKeys) (b : BoardState) :
    (update_materials hk b).fiftyMoveClock = b.fiftyMoveClock := rfl

theorem update_materials_hisply (hk : HashKeys) (b : BoardState) :
    (update_materials hk b).hisply = b.hisply := rfl

theorem update_materials_history (hk : HashKeys) (b : BoardState) :
    (update_materials hk b).history = b.history := rfl

theorem update_materials_pgnArr (hk : HashKeys) (b : BoardState) :
    (update_materials hk b).pgnArr = b.pgnArr := rfl

theorem update_materials_pgn (hk : HashKeys) (b : BoardState) :
    (update_materials hk b).pgn = b.pgn := rfl

theorem update_materials_posKey (hk : HashKeys) (b : BoardState) :
    (update_materials hk b).posKey = generate_pos_key hk b := rfl

theorem process_pgn_pieces (ms : MoveState) (b : BoardState) :
    (process_pgn ms b).pieces = b.pieces := rfl

theorem update_history_pieces (hk : HashKeys) (ms : MoveState) (b : BoardState) :
    (update_history hk ms b).pieces = b.pieces := rfl

theorem update_history_turn (hk : HashKeys) (ms : MoveState) (b : BoardState) :
    (update_history hk ms b).turn = b.turn := rfl

theorem update_history_castle (hk : HashKeys) (ms : MoveState) (b : BoardState) :
    (update_history hk ms b).castle = b.castle := rfl

theorem update_history_enPassant (hk : HashKeys) (ms : MoveState) (b : BoardState) :
    (update_history hk ms b).enPassant = b.enPassant := rfl

theorem update_history_fiftyMoveClock (hk : HashKeys) (ms : MoveState)
    (b : BoardState) :
    (update_history hk ms b).fiftyMoveClock = b.fiftyMoveClock := rfl

theorem update_history_posKey (hk : HashKeys) (ms : MoveState) (b : BoardState) :
    (update_history hk ms b).posKey = b.posKey := rfl

theorem update_history_hisply (hk : HashKeys) (ms : MoveState) (b : BoardState) :
    (update_history hk ms b).hisply = b.hisply + 1 := rfl

theorem update_history_kingSquare (hk : HashKeys) (ms : MoveState) (b : BoardState) :
    (update_history hk ms b).kingSquare = b.kingSquare := rfl

theorem update_history_pceNum (hk : HashKeys) (ms : MoveState) (b : BoardState) :
    (update_history hk ms b).pceNum = b.pceNum := rfl

theorem update_history_bigPce (hk : HashKeys) (ms : MoveState) (b : BoardState) :
    (update_history hk ms b).bigPce = b.bigPce := rfl

theorem update_history_majPce (hk : HashKeys) (ms : MoveState) (b : BoardState) :
    (update_history hk ms b).majPce = b.majPce := rfl

theorem update_history_minPce (hk : HashKeys) (ms : MoveState) (b : BoardState) :
    (update_history hk ms b).minPce = b.minPce := rfl

theorem update_history_material (hk : HashKeys) (ms : MoveState) (b : BoardState) :
    (update_history hk ms b).material = b.material := rfl

theorem update_history_pList (hk : HashKeys) (ms : MoveState) (b : BoardState) :
    (update_history hk ms b).pList = b.pList := rfl

theorem update_history_pawns (hk : HashKeys) (ms : MoveState) (b : BoardState) :
    (update_history hk ms b).pawns = b.pawns := rfl

theorem update_history_history (hk : HashKeys) (ms : MoveState) (b : BoardState) :
    (update_history hk ms b).history =
      b.history.set b.hisply
        (some { move := moveWord ms, castle := b.castle,
                fiftyMoveClock := b.fiftyMoveClock, enPassant := b.enPassant,
                hashKey := generate_pos_key hk (process_pgn ms b) }) := rfl

theorem generate_pos_key_process_pgn (hk : HashKeys) (ms : MoveState)
    (b : BoardState) :
    generate_pos_key hk (process_pgn ms b) = generate_pos_key hk b :=
  generate_pos_key_congr hk rfl rfl rfl rfl

theorem generate_pos_key_update_materials (hk hk2 : HashKeys) (b : BoardState) :
    generate_pos_key hk (update_materials hk2 b) = generate_pos_key hk b :=
  generate_pos_key_congr hk rfl rfl rfl rfl

theorem getD_set_self' {α : Type} {l : List α} {i : Nat} (h : i < l.length)
    (a d : α) : (l.set i a).getD i d = a := by
  rw [List.getD_eq_getElem?_getD, List.getElem?_set_self h]
  rfl

theorem boardIte_pieces (c : Prop) [Decidable c] (x y : BoardState) :
    (if c then x else y).pieces = if c then x.pieces else y.pieces := by
  split <;> rfl

theorem boardIte_turn (c : Prop) [Decidable c] (x y : BoardState) :
    (if c then x else y).turn = if c then x.turn else y.turn := by
  split <;> rfl

theorem boardIte_castle (c : Prop) [Decidable c] (x y : BoardState) :
    (if c then x else y).castle = if c then x.castle else y.castle := by
  split <;> rfl

theorem boardIte_enPassant (c : Prop) [Decidable c] (x y : BoardState) :
    (if c then x else y).enPassant = if c then x.enPassant else y.enPassant := by
  split <;> rfl

theorem boardIte_fiftyMoveClock (c : Prop) [Decidable c] (x y : BoardState) :
    (if c then x else y).fiftyMoveClock =
      if c then x.fiftyMoveClock else y.fiftyMoveClock := by
  split <;> rfl

theorem boardIte_hisply (c : Prop) [Decidable c] (x y : BoardState) :
    (if c then x else y).hisply = if c then x.hisply else y.hisply := by
  split <;> rfl

theorem boardIte_history (c : Prop) [Decidable c] (x y : BoardState) :
    (if c then x else y).history = if c then x.history else y.history := by
  split <;> rfl

theorem boardIte_pgnArr (c : Prop) [Decidable c] (x y : BoardState) :
    (if c then x else y).pgnArr = if c then x.pgnArr else y.pgnArr := by
  split <;> rfl

theorem boardIte_pgn (c : Prop) [Decidable c] (x y : BoardState) :
    (if c then x else y).pgn = if c then x.pgn else y.pgn := by
  split <;> rfl

theorem boardIte_posKey (c : Prop) [Decidable c] (x y : BoardState) :
    (if c then x else y).posKey = if c then x.posKey else y.posKey := by
  split <;> rfl

theorem roundtrip_plain (hk : HashKeys) (ts mp : Nat × Nat) (ms : MoveState)
    (b : BoardState) (f : Nat)
    (hmsf : ms.from120 = (f : Int))
    (hf : f < 120)
    (hsel : (mouse_pos_to_120 ts mp : Int) ≠ ms.from120)
    (htb : mouse_pos_to_120 ts mp < 120)
    (hlen : b.pieces.length = 120)
    (hcap : b.pieces.getD (mouse_pos_to_120 ts mp) 0 < 16)
    (hturn : b.turn = 0 ∨ b.turn = 1)
    (hkey : b.posKey = generate_pos_key hk b)
    (hhis : b.hisply < 2048)
    (hhlen : b.history.length = 2048)
    (hnp1 : ¬(b.pieces.getD f 0 = 1 ∧ RanksBrd.getD (mouse_pos_to_120 ts mp) 100 = 7))
    (hnp2 : ¬(b.pieces.getD f 0 = 7 ∧ RanksBrd.getD (mouse_pos_to_120 ts mp) 100 = 0)) :
    (undo_move hk (process_move hk ts mp ms b).1 (process_move hk ts mp ms b).2).2.pieces = b.pieces ∧
    (undo_move hk (process_move hk ts mp ms b).1 (process_move hk ts mp ms b).2).2.turn = b.turn ∧
    (undo_move hk (process_move hk ts mp ms b).1 (process_move hk ts mp ms b).2).2.castle = b.castle ∧
    (undo_move hk (process_move hk ts mp ms b).1 (process_move hk ts mp ms b).2).2.enPassant = b.enPassant ∧
    (undo_move hk (process_move hk ts mp ms b).1 (process_move hk ts mp ms b).2).2.posKey = b.posKey ∧
    (undo_move hk (process_move hk ts mp ms b).1 (process_move hk ts mp ms b).2).2.hisply = b.hisply ∧
    (undo_move hk (process_move hk ts mp ms b).1 (process_move hk ts mp ms b).2).2.fiftyMoveClock = b.fiftyMoveClock - 1 := by
  set t := mouse_pos_to_120 ts mp with hts
  have hft : f ≠ t := by
    intro he
    exact hsel (by rw [hmsf, he])
  have hnp1' : ¬(b.pieces.getD f 0 = 1 ∧ RanksBrd.getD t 100 = 7 ∧ ms.prom = 0) :=
    fun h => hnp1 ⟨h.1, h.2.1⟩
  have hnp2' : ¬(b.pieces.getD f 0 = 7 ∧ RanksBrd.getD t 100 = 0 ∧ ms.prom = 0) :=
    fun h => hnp2 ⟨h.1, h.2.1⟩
  have hnpor : ¬((b.pieces.getD f 0 = 1 ∧ RanksBrd.getD t 100 = 7) ∨
      (b.pieces.getD f 0 = 7 ∧ RanksBrd.getD t 100 = 0)) := fun h => h.elim hnp1 hnp2
  simp only [process_move, set_to_index_120, reset_move]
  rw [if_neg hsel]
  simp only [hmsf, Int.toNat_natCast, ← hts]
  rw [if_neg hnp1', if_neg hnp2']
  simp only [undo_move, boardIte_pieces, boardIte_turn, boardIte_castle,
    boardIte_enPassant, boardIte_fiftyMoveClock, boardIte_hisply,
    boardIte_history, boardIte_pgnArr, boardIte_pgn, boardIte_posKey,
    update_history_pieces, update_history_turn, update_history_castle,
    update_history_enPassant, update_history_fiftyMoveClock,
    update_history_posKey, update_history_hisply, update_history_history,
    update_materials_pieces, update_materials_turn, update_materials_castle,
    update_materials_enPassant, update_materials_fiftyMoveClock,
    update_materials_hisply, update_materials_history, update_materials_pgnArr,
    update_materials_pgn, update_materials_posKey,
    generate_pos_key_process_pgn, generate_pos_key_update_materials, ite_self]
  rw [show (if b.hisply + 1 = 0 then 2047 else b.hisply + 1 - 1) = b.hisply from by simp]
  rw [getD_set_self' (show b.hisply < b.history.length from by omega) _ none]
  dsimp only
  rw [getD_set_ne hft]
  simp only [moveWord, Int.toNat_natCast]
  rw [if_neg hnpor]
  have hflip : (if (if b.turn = 0 then 1 else 0) = 0 then 1 else 0) = b.turn := by
    rcases hturn with h | h <;> simp [h]
  have hQ : ∀ i, i ≠ f → i ≠ t →
      ((b.pieces.set f 0).set t (b.pieces.getD f 0))[i]? = b.pieces[i]? := by
    intro i hif hit
    rw [List.getElem?_set_ne (Ne.symm hit), List.getElem?_set_ne (Ne.symm hif)]
  have hrestore := set_set_restore
    (show ((b.pieces.set f 0).set t (b.pieces.getD f 0)).length = b.pieces.length from by
      simp [List.length_set])
    (show f < b.pieces.length from by omega)
    (show t < b.pieces.length from by omega) hft hQ
  have hgetP2 : ((b.pieces.set f 0).set t (b.pieces.getD f 0)).getD t 0 = b.pieces.getD f 0 :=
    getD_set_self' (show t < (b.pieces.set f 0).length from by
      rw [List.length_set]; omega) _ _
  by_cases hps : (b.pieces.getD f 0 = 1 ∧ RanksBrd.getD f 100 = 1 ∨
      b.pieces.getD f 0 = 7 ∧ RanksBrd.getD f 100 = 6)
  · rw [if_pos hps]
    by_cases hen : ms.enPassant ≠ 99
    · rw [if_pos hen]
      obtain ⟨hd1, hd2, hd3, hd4⟩ :=
        move_decode_11 f t (b.pieces.getD t 0) (by omega) (by omega) hcap
      rw [hd1, hd2, hd3]
      simp only [hd4, ne_eq, not_true_eq_false, false_and, if_false]
      rw [hgetP2, hrestore, hflip]
      refine ⟨by first | rfl | trivial, by first | rfl | trivial,
        by first | rfl | trivial, by first | rfl | trivial, ?_,
        by first | trivial | (split <;> omega), by first | trivial | (split <;> omega)⟩
      rw [hkey]
      exact generate_pos_key_congr hk rfl rfl rfl rfl
    · rw [if_neg hen]
      obtain ⟨hd1, hd2, hd3, hd4⟩ :=
        move_decode_01 f t (b.pieces.getD t 0) (by omega) (by omega) hcap
      rw [hd1, hd2, hd3]
      simp only [hd4, ne_eq, not_true_eq_false, false_and, if_false]
      rw [hgetP2, hrestore, hflip]
      refine ⟨by first | rfl | trivial, by first | rfl | trivial,
        by first | rfl | trivial, by first | rfl | trivial, ?_,
        by first | trivial | (split <;> omega), by first | trivial | (split <;> omega)⟩
      rw [hkey]
      exact generate_pos_key_congr hk rfl rfl rfl rfl
  · rw [if_neg hps]
    by_cases hen : ms.enPassant ≠ 99
    · rw [if_pos hen]
      obtain ⟨hd1, hd2, hd3, hd4⟩ :=
        move_decode_10 f t (b.pieces.getD t 0) (by omega) (by omega) hcap
      rw [hd1, hd2, hd3]
      simp only [hd4, ne_eq, not_true_eq_false, false_and, if_false]
      rw [hgetP2, hrestore, hflip]
      refine ⟨by first | rfl | trivial, by first | rfl | trivial,
        by first | rfl | trivial, by first | rfl | trivial, ?_,
        by first | trivial | (split <;> omega), by first | trivial | (split <;> omega)⟩
      rw [hkey]
      exact generate_pos_key_congr hk rfl rfl rfl rfl
    · rw [if_neg hen]
      obtain ⟨hd1, hd2, hd3, hd4⟩ :=
        move_decode_00 f t (b.pieces.getD t 0) (by omega) (by omega) hcap
      rw [hd1, hd2, hd3]
      simp only [hd4, ne_eq, not_true_eq_false, false_and, if_false]
      rw [hgetP2, hrestore, hflip]
      refine ⟨by first | rfl | trivial, by first | rfl | trivial,
        by first | rfl | trivial, by first | rfl | trivial, ?_,
        by first | trivial | (split <;> omega), by first | trivial | (split <;> omega)⟩
      rw [hkey]
      exact generate_pos_key_congr hk rfl rfl rfl rfl


theorem move_decode_promQ (f t c : Nat) (hf : f < 128) (ht : t < 128) (hc : c < 16) :
    (f ||| t <<< 7 ||| c <<< 14 ||| 1048576 ||| 16777216) &&& 127 = f ∧
    ((f ||| t <<< 7 ||| c <<< 14 ||| 1048576 ||| 16777216) &&& 16256) >>> 7 = t ∧
    ((f ||| t <<< 7 ||| c <<< 14 ||| 1048576 ||| 16777216) &&& 245760) >>> 14 = c ∧
    (f ||| t <<< 7 ||| c <<< 14 ||| 1048576 ||| 16777216) &&& 15728640 ≠ 0 := by
  have h := move_decode f t c 0 0 1 hf ht hc (by omega) (by omega) (by omega)
  simp only [show (1 : Nat) <<< 20 = 1048576 from by decide,
    show (1 : Nat) <<< 24 = 16777216 from by decide,
    Nat.zero_shiftLeft, Nat.or_zero] at h
  exact ⟨h.1, h.2.1, h.2.2.1, fun hc0 => by simp [h.2.2.2] at hc0⟩

theorem move_decode_promN (f t c : Nat) (hf : f < 128) (ht : t < 128) (hc : c < 16) :
    (f ||| t <<< 7 ||| c <<< 14 ||| 2097152 ||| 16777216) &&& 127 = f ∧
    ((f ||| t <<< 7 ||| c <<< 14 ||| 2097152 ||| 16777216) &&& 16256) >>> 7 = t ∧
    ((f ||| t <<< 7 ||| c <<< 14 ||| 2097152 ||| 16777216) &&& 245760) >>> 14 = c ∧
    (f ||| t <<< 7 ||| c <<< 14 ||| 2097152 ||| 16777216) &&& 15728640 ≠ 0 := by
  have h := move_decode f t c 0 0 2 hf ht hc (by omega) (by omega) (by omega)
  simp only [show (2 : Nat) <<< 20 = 2097152 from by decide,
    show (1 : Nat) <<< 24 = 16777216 from by decide,
    Nat.zero_shiftLeft, Nat.or_zero] at h
  exact ⟨h.1, h.2.1, h.2.2.1, fun hc0 => by simp [h.2.2.2] at hc0⟩

theorem move_decode_promR (f t c : Nat) (hf : f < 128) (ht : t < 128) (hc : c < 16) :
    (f ||| t <<< 7 ||| c <<< 14 ||| 4194304 ||| 16777216) &&& 127 = f ∧
    ((f ||| t <<< 7 ||| c <<< 14 ||| 4194304 ||| 16777216) &&& 16256) >>> 7 = t ∧
    ((f ||| t <<< 7 ||| c <<< 14 ||| 4194304 ||| 16777216) &&& 245760) >>> 14 = c ∧
    (f ||| t <<< 7 ||| c <<< 14 ||| 4194304 ||| 16777216) &&& 15728640 ≠ 0 := by
  have h := move_decode f t c 0 0 4 hf ht hc (by omega) (by omega) (by omega)
  simp only [show (4 : Nat) <<< 20 = 4194304 from by decide,
    show (1 : Nat) <<< 24 = 16777216 from by decide,
    Nat.zero_shiftLeft, Nat.or_zero] at h
  exact ⟨h.1, h.2.1, h.2.2.1, fun hc0 => by simp [h.2.2.2] at hc0⟩

theorem move_decode_promB (f t c : Nat) (hf : f < 128) (ht : t < 128) (hc : c < 16) :
    (f ||| t <<< 7 ||| c <<< 14 ||| 8388608 ||| 16777216) &&& 127 = f ∧
    ((f ||| t <<< 7 ||| c <<< 14 ||| 8388608 ||| 16777216) &&& 16256) >>> 7 = t ∧
    ((f ||| t <<< 7 ||| c <<< 14 ||| 8388608 ||| 16777216) &&& 245760) >>> 14 = c ∧
    (f ||| t <<< 7 ||| c <<< 14 ||| 8388608 ||| 16777216) &&& 15728640 ≠ 0 := by
  have h := move_decode f t c 0 0 8 hf ht hc (by omega) (by omega) (by omega)
  simp only [show (8 : Nat) <<< 20 = 8388608 from by decide,
    show (1 : Nat) <<< 24 = 16777216 from by decide,
    Nat.zero_shiftLeft, Nat.or_zero] at h
  exact ⟨h.1, h.2.1, h.2.2.1, fun hc0 => by simp [h.2.2.2] at hc0⟩

theorem set_set_restore_v {P Q : List Nat} {f t v : Nat}
    (hv : v = P.getD f 0)
    (hlen : Q.length = P.length) (hf : f < P.length) (ht : t < P.length)
    (hft : f ≠ t)
    (hQ : ∀ i, i ≠ f → i ≠ t → Q[i]? = P[i]?) :
    (Q.set f v).set t (P.getD t 0) = P := by
  rw [hv]
  exact set_set_restore hlen hf ht hft hQ



theorem process_move_white_prom (hk : HashKeys) (ts mp : Nat × Nat)
    (ms : MoveState) (b : BoardState)
    (hsel : (mouse_pos_to_120 ts mp : Int) ≠ ms.from120)
    (hcond : b.pieces.getD ms.from120.toNat 0 = 1 ∧
      RanksBrd.getD (mouse_pos_to_120 ts mp) 100 = 7 ∧ ms.prom = 0) :
    process_move hk ts mp ms b =
      ({ ms with to120 := (mouse_pos_to_120 ts mp : Int),
                 capturedPiece :=
                   (b.pieces.set ms.from120.toNat 0).getD (mouse_pos_to_120 ts mp) 0,
                 fromPiece := b.pieces.getD ms.from120.toNat 0,
                 prom := 1 },
       { b with pieces := (b.pieces.set ms.from120.toNat 0).set (mouse_pos_to_120 ts mp)
                  (b.pieces.getD ms.from120.toNat 0) }) := by
  simp only [process_move, set_to_index_120, Int.toNat_natCast]
  rw [if_neg hsel, if_pos hcond]

theorem process_move_black_prom (hk : HashKeys) (ts mp : Nat × Nat)
    (ms : MoveState) (b : BoardState)
    (hsel : (mouse_pos_to_120 ts mp : Int) ≠ ms.from120)
    (hnw : ¬(b.pieces.getD ms.from120.toNat 0 = 1 ∧
      RanksBrd.getD (mouse_pos_to_120 ts mp) 100 = 7 ∧ ms.prom = 0))
    (hcond : b.pieces.getD ms.from120.toNat 0 = 7 ∧
      RanksBrd.getD (mouse_pos_to_120 ts mp) 100 = 0 ∧ ms.prom = 0) :
    process_move hk ts mp ms b =
      ({ ms with to120 := (mouse_pos_to_120 ts mp : Int),
                 capturedPiece :=
                   (b.pieces.set ms.from120.toNat 0).getD (mouse_pos_to_120 ts mp) 0,
                 fromPiece := b.pieces.getD ms.from120.toNat 0,
                 prom := 2 },
       { b with pieces := (b.pieces.set ms.from120.toNat 0).set (mouse_pos_to_120 ts mp)
                  (b.pieces.getD ms.from120.toNat 0) }) := by
  simp only [process_move, set_to_index_120, Int.toNat_natCast]
  rw [if_neg hsel, if_neg hnw, if_pos hcond]

theorem undo_move_fields (hk : HashKeys) (ms0 : MoveState) (B : BoardState)
    (u : Undo)
    (hu : B.history.getD (if B.hisply = 0 then 2047 else B.hisply - 1) none = some u) :
    (undo_move hk ms0 B).2.pieces =
      (B.pieces.set (u.move &&& 0x7F)
        (if u.move &&& 0xF00000 ≠ 0 ∧ B.turn = 1 then 1
         else if u.move &&& 0xF00000 ≠ 0 ∧ B.turn = 0 then 7
         else B.pieces.getD ((u.move &&& 0x3F80) >>> 7) 0)).set
        ((u.move &&& 0x3F80) >>> 7) ((u.move &&& 0x3C000) >>> 14) ∧
    (undo_move hk ms0 B).2.turn = (if B.turn = 0 then 1 else 0) ∧
    (undo_move hk ms0 B).2.castle = u.castle ∧
    (undo_move hk ms0 B).2.enPassant = u.enPassant ∧
    (undo_move hk ms0 B).2.posKey =
      generate_pos_key hk
        { B with
            pieces := (B.pieces.set (u.move &&& 0x7F)
              (if u.move &&& 0xF00000 ≠ 0 ∧ B.turn = 1 then 1
               else if u.move &&& 0xF00000 ≠ 0 ∧ B.turn = 0 then 7
               else B.pieces.getD ((u.move &&& 0x3F80) >>> 7) 0)).set
              ((u.move &&& 0x3F80) >>> 7) ((u.move &&& 0x3C000) >>> 14),
            turn := if B.turn = 0 then 1 else 0,
            castle := u.castle, enPassant := u.enPassant } ∧
    (undo_move hk ms0 B).2.hisply = (if 0 < B.hisply then B.hisply - 1 else B.hisply) ∧
    (undo_move hk ms0 B).2.fiftyMoveClock =
      (if 0 < u.fiftyMoveClock then u.fiftyMoveClock - 1 else u.fiftyMoveClock) := by
  have hrec : B.history[if B.hisply = 0 then 2047 else B.hisply - 1]?.getD none = some u := by
    rw [← List.getD_eq_getElem?_getD]
    exact hu
  simp only [undo_move, List.getD_eq_getElem?_getD, hrec]
  refine ⟨rfl, rfl, rfl, rfl, generate_pos_key_congr hk rfl rfl rfl rfl, rfl, rfl⟩

theorem undo_history_fields (hk : HashKeys) (ms0 ms2 : MoveState) (Y : BoardState)
    (h : Y.hisply < Y.history.length) :
    (undo_move hk ms0 (update_history hk ms2 Y)).2.pieces =
      (Y.pieces.set (moveWord ms2 &&& 0x7F)
        (if moveWord ms2 &&& 0xF00000 ≠ 0 ∧ Y.turn = 1 then 1
         else if moveWord ms2 &&& 0xF00000 ≠ 0 ∧ Y.turn = 0 then 7
         else Y.pieces.getD ((moveWord ms2 &&& 0x3F80) >>> 7) 0)).set
        ((moveWord ms2 &&& 0x3F80) >>> 7) ((moveWord ms2 &&& 0x3C000) >>> 14) ∧
    (undo_move hk ms0 (update_history hk ms2 Y)).2.turn = (if Y.turn = 0 then 1 else 0) ∧
    (undo_move hk ms0 (update_history hk ms2 Y)).2.castle = Y.castle ∧
    (undo_move hk ms0 (update_history hk ms2 Y)).2.enPassant = Y.enPassant ∧
    (undo_move hk ms0 (update_history hk ms2 Y)).2.posKey =
      generate_pos_key hk
        { Y with
            pieces := (Y.pieces.set (moveWord ms2 &&& 0x7F)
              (if moveWord ms2 &&& 0xF00000 ≠ 0 ∧ Y.turn = 1 then 1
               else if moveWord ms2 &&& 0xF00000 ≠ 0 ∧ Y.turn = 0 then 7
               else Y.pieces.getD ((moveWord ms2 &&& 0x3F80) >>> 7) 0)).set
              ((moveWord ms2 &&& 0x3F80) >>> 7) ((moveWord ms2 &&& 0x3C000) >>> 14),
            turn := if Y.turn = 0 then 1 else 0 } ∧
    (undo_move hk ms0 (update_history hk ms2 Y)).2.hisply = Y.hisply ∧
    (undo_move hk ms0 (update_history hk ms2 Y)).2.fiftyMoveClock =
      (if 0 < Y.fiftyMoveClock then Y.fiftyMoveClock - 1 else Y.fiftyMoveClock) := by
  have hu : (update_history hk ms2 Y).history.getD
      (if (update_history hk ms2 Y).hisply = 0 then 2047
       else (update_history hk ms2 Y).hisply - 1) none =
      some { move := moveWord ms2, castle := Y.castle,
             fiftyMoveClock := Y.fiftyMoveClock, enPassant := Y.enPassant,
             hashKey := generate_pos_key hk (process_pgn ms2 Y) } := by
    rw [update_history_history, update_history_hisply,
      if_neg (Nat.succ_ne_zero Y.hisply), Nat.add_sub_cancel]
    exact getD_set_self' h _ none
  have E := undo_move_fields hk ms0 (update_history hk ms2 Y) _ hu
  simp only [update_history_pieces, update_history_turn, update_history_castle,
    update_history_enPassant, update_history_hisply] at E
  obtain ⟨e1, e2, e3, e4, e5, e6, e7⟩ := E
  exact ⟨e1, e2, e3, e4, e5.trans (generate_pos_key_congr hk rfl rfl rfl rfl),
    e6.trans (by simp), e7⟩

theorem undo_history_pieces (hk : HashKeys) (ms0 ms2 : MoveState) (Y : BoardState)
    (h : Y.hisply < Y.history.length) :
    (undo_move hk ms0 (update_history hk ms2 Y)).2.pieces =
      (Y.pieces.set (moveWord ms2 &&& 0x7F)
        (if moveWord ms2 &&& 0xF00000 ≠ 0 ∧ Y.turn = 1 then 1
         else if moveWord ms2 &&& 0xF00000 ≠ 0 ∧ Y.turn = 0 then 7
         else Y.pieces.getD ((moveWord ms2 &&& 0x3F80) >>> 7) 0)).set
        ((moveWord ms2 &&& 0x3F80) >>> 7) ((moveWord ms2 &&& 0x3C000) >>> 14) :=
  (undo_history_fields hk ms0 ms2 Y h).1

theorem undo_history_turn (hk : HashKeys) (ms0 ms2 : MoveState) (Y : BoardState)
    (h : Y.hisply < Y.history.length) :
    (undo_move hk ms0 (update_history hk ms2 Y)).2.turn = (if Y.turn = 0 then 1 else 0) :=
  (undo_history_fields hk ms0 ms2 Y h).2.1

theorem undo_history_castle (hk : HashKeys) (ms0 ms2 : MoveState) (Y : BoardState)
    (h : Y.hisply < Y.history.length) :
    (undo_move hk ms0 (update_history hk ms2 Y)).2.castle = Y.castle :=
  (undo_history_fields hk ms0 ms2 Y h).2.2.1

theorem undo_history_enPassant (hk : HashKeys) (ms0 ms2 : MoveState) (Y : BoardState)
    (h : Y.hisply < Y.history.length) :
    (undo_move hk ms0 (update_history hk ms2 Y)).2.enPassant = Y.enPassant :=
  (undo_history_fields hk ms0 ms2 Y h).2.2.2.1

theorem undo_history_posKey (hk : HashKeys) (ms0 ms2 : MoveState) (Y : BoardState)
    (h : Y.hisply < Y.history.length) :
    (undo_move hk ms0 (update_history hk ms2 Y)).2.posKey =
      generate_pos_key hk
        { Y with
            pieces := (Y.pieces.set (moveWord ms2 &&& 0x7F)
              (if moveWord ms2 &&& 0xF00000 ≠ 0 ∧ Y.turn = 1 then 1
               else if moveWord ms2 &&& 0xF00000 ≠ 0 ∧ Y.turn = 0 then 7
               else Y.pieces.getD ((moveWord ms2 &&& 0x3F80) >>> 7) 0)).set
              ((moveWord ms2 &&& 0x3F80) >>> 7) ((moveWord ms2 &&& 0x3C000) >>> 14),
            turn := if Y.turn = 0 then 1 else 0 } :=
  (undo_history_fields hk ms0 ms2 Y h).2.2.2.2.1

theorem undo_history_hisply (hk : HashKeys) (ms0 ms2 : MoveState) (Y : BoardState)
    (h : Y.hisply < Y.history.length) :
    (undo_move hk ms0 (update_history hk ms2 Y)).2.hisply = Y.hisply :=
  (undo_history_fields hk ms0 ms2 Y h).2.2.2.2.2.1

theorem undo_history_fiftyMoveClock (hk : HashKeys) (ms0 ms2 : MoveState)
    (Y : BoardState) (h : Y.hisply < Y.history.length) :
    (undo_move hk ms0 (update_history hk ms2 Y)).2.fiftyMoveClock =
      (if 0 < Y.fiftyMoveClock then Y.fiftyMoveClock - 1 else Y.fiftyMoveClock) :=
  (undo_history_fields hk ms0 ms2 Y h).2.2.2.2.2.2

theorem roundtrip_prom (hk : HashKeys) (ts mp : Nat × Nat) (ms : MoveState)
    (b : BoardState) (f pp : Nat)
    (hmsf : ms.from120 = (f : Int))
    (hf : f < 120)
    (hsel : (mouse_pos_to_120 ts mp : Int) ≠ ms.from120)
    (htb : mouse_pos_to_120 ts mp < 120)
    (hlen : b.pieces.length = 120)
    (hcap : b.pieces.getD (mouse_pos_to_120 ts mp) 0 < 16)
    (hkey : b.posKey = generate_pos_key hk b)
    (hhis : b.hisply < 2048)
    (hhlen : b.history.length = 2048)
    (hms0 : ms.prom = 0)
    (hmse : ms.enPassant = 99)
    (hpp : pp = 5 ∨ pp = 2 ∨ pp = 4 ∨ pp = 3 ∨ pp = 11 ∨ pp = 8 ∨ pp = 10 ∨ pp = 9)
    (hside : (b.pieces.getD f 0 = 1 ∧ RanksBrd.getD (mouse_pos_to_120 ts mp) 100 = 7 ∧
                b.turn = 0 ∧ RanksBrd.getD f 100 ≠ 1) ∨
             (b.pieces.getD f 0 = 7 ∧ RanksBrd.getD (mouse_pos_to_120 ts mp) 100 = 0 ∧
                b.turn = 1 ∧ RanksBrd.getD f 100 ≠ 6)) :
    (undo_move hk (handle_prom hk (process_move hk ts mp ms b).1 (process_move hk ts mp ms b).2 pp).1
        (handle_prom hk (process_move hk ts mp ms b).1 (process_move hk ts mp ms b).2 pp).2).2.pieces = b.pieces ∧
    (undo_move hk (handle_prom hk (process_move hk ts mp ms b).1 (process_move hk ts mp ms b).2 pp).1
        (handle_prom hk (process_move hk ts mp ms b).1 (process_move hk ts mp ms b).2 pp).2).2.turn = b.turn ∧
    (undo_move hk (handle_prom hk (process_move hk ts mp ms b).1 (process_move hk ts mp ms b).2 pp).1
        (handle_prom hk (process_move hk ts mp ms b).1 (process_move hk ts mp ms b).2 pp).2).2.castle = b.castle ∧
    (undo_move hk (handle_prom hk (process_move hk ts mp ms b).1 (process_move hk ts mp ms b).2 pp).1
        (handle_prom hk (process_move hk ts mp ms b).1 (process_move hk ts mp ms b).2 pp).2).2.enPassant = b.enPassant ∧
    (undo_move hk (handle_prom hk (process_move hk ts mp ms b).1 (process_move hk ts mp ms b).2 pp).1
        (handle_prom hk (process_move hk ts mp ms b).1 (process_move hk ts mp ms b).2 pp).2).2.posKey = b.posKey ∧
    (undo_move hk (handle_prom hk (process_move hk ts mp ms b).1 (process_move hk ts mp ms b).2 pp).1
        (handle_prom hk (process_move hk ts mp ms b).1 (process_move hk ts mp ms b).2 pp).2).2.hisply = b.hisply ∧
    (undo_move hk (handle_prom hk (process_move hk ts mp ms b).1 (process_move hk ts mp ms b).2 pp).1
        (handle_prom hk (process_move hk ts mp ms b).1 (process_move hk ts mp ms b).2 pp).2).2.fiftyMoveClock = b.fiftyMoveClock - 1 := by
  set t := mouse_pos_to_120 ts mp with hts
  have hft : f ≠ t := by
    intro he
    exact hsel (by rw [hmsf, he])
  have hfb : f < b.pieces.length := by omega
  have htb2 : t < b.pieces.length := by omega
  have hpsneg : ¬(b.pieces.getD f 0 = 1 ∧ RanksBrd.getD f 100 = 1 ∨
      b.pieces.getD f 0 = 7 ∧ RanksBrd.getD f 100 = 6) := by
    rcases hside with ⟨hfp, _, _, hrf⟩ | ⟨hfp, _, _, hrf⟩ <;>
      rintro (⟨h1, h2⟩ | ⟨h1, h2⟩) <;> rw [hfp] at h1 <;> first | exact hrf h2 | omega
  have hQlen : (((((b.pieces.set f 0).set t (b.pieces.getD f 0)).set f 0).set t pp)).length = b.pieces.length := by
    simp [List.length_set]
  have hQ : ∀ i, i ≠ f → i ≠ t →
      ((((b.pieces.set f 0).set t (b.pieces.getD f 0)).set f 0).set t pp)[i]? = b.pieces[i]? := by
    intro i hif hit
    rw [List.getElem?_set_ne (Ne.symm hit), List.getElem?_set_ne (Ne.symm hif),
      List.getElem?_set_ne (Ne.symm hit), List.getElem?_set_ne (Ne.symm hif)]
  rcases hside with hside | hside
  · obtain ⟨hfp, hrt, htv, hrf⟩ := hside
    rw [process_move_white_prom hk ts mp ms b hsel
      (by rw [hmsf]; simp only [Int.toNat_natCast]; exact ⟨hfp, hrt, hms0⟩)]
    simp only [handle_prom]
    simp only [hmsf, Int.toNat_natCast, ← hts]
    simp only [undo_history_pieces, undo_history_turn, undo_history_castle,
      undo_history_enPassant, undo_history_posKey, undo_history_hisply,
      undo_history_fiftyMoveClock, update_materials_pieces, update_materials_turn,
      update_materials_castle, update_materials_enPassant,
      update_materials_fiftyMoveClock, update_materials_hisply,
      update_materials_history, hhlen, hhis]
    rw [getD_set_ne hft]
    simp only [moveWord, Int.toNat_natCast]
    rw [if_pos (Or.inl (⟨hfp, hrt⟩ : b.pieces.getD f 0 = 1 ∧ RanksBrd.getD t 100 = 7))]
    rw [if_neg hpsneg]
    rw [if_neg (show ¬ms.enPassant ≠ 99 from by simp [hmse])]
    have hturnpick : (if b.turn = 0 then 1 else 0) = 1 := by simp [htv]
    have hflip : (if (if b.turn = 0 then 1 else 0) = 0 then 1 else 0) = b.turn := by
      simp [htv]
    rcases hpp with rfl | rfl | rfl | rfl | rfl | rfl | rfl | rfl
    · rw [if_pos (show (5:Nat) = 5 ∨ (5:Nat) = 11 from by omega)]
      obtain ⟨hd1, hd2, hd3, hd4⟩ :=
        move_decode_promQ f t (b.pieces.getD t 0) (by omega) (by omega) hcap
      rw [hd1, hd2, hd3]
      simp only [hd4, ne_eq, not_false_eq_true, true_and]
      rw [if_pos hturnpick]
      rw [set_set_restore_v hfp.symm hQlen hfb htb2 hft hQ]
      rw [hflip]
      repeat' apply And.intro
      all_goals first
        | (rw [hkey]; exact generate_pos_key_congr hk rfl rfl rfl rfl)
        | (split <;> omega)
        | rfl
        | trivial
    · rw [if_neg (show ¬((2:Nat) = 5 ∨ (2:Nat) = 11) from by omega),
        if_pos (show (2:Nat) = 2 ∨ (2:Nat) = 8 from by omega)]
      obtain ⟨hd1, hd2, hd3, hd4⟩ :=
        move_decode_promN f t (b.pieces.getD t 0) (by omega) (by omega) hcap
      rw [hd1, hd2, hd3]
      simp only [hd4, ne_eq, not_false_eq_true, true_and]
      rw [if_pos hturnpick]
      rw [set_set_restore_v hfp.symm hQlen hfb htb2 hft hQ]
      rw [hflip]
      repeat' apply And.intro
      all_goals first
        | (rw [hkey]; exact generate_pos_key_congr hk rfl rfl rfl rfl)
        | (split <;> omega)
        | rfl
        | trivial
    · rw [if_neg (show ¬((4:Nat) = 5 ∨ (4:Nat) = 11) from by omega),
        if_neg (show ¬((4:Nat) = 2 ∨ (4:Nat) = 8) from by omega),
        if_pos (show (4:Nat) = 4 ∨ (4:Nat) = 10 from by omega)]
      obtain ⟨hd1, hd2, hd3, hd4⟩ :=
        move_decode_promR f t (b.pieces.getD t 0) (by omega) (by omega) hcap
      rw [hd1, hd2, hd3]
      simp only [hd4, ne_eq, not_false_eq_true, true_and]
      rw [if_pos hturnpick]
      rw [set_set_restore_v hfp.symm hQlen hfb htb2 hft hQ]
      rw [hflip]
      repeat' apply And.intro
      all_goals first
        | (rw [hkey]; exact generate_pos_key_congr hk rfl rfl rfl rfl)
        | (split <;> omega)
        | rfl
        | trivial
    · rw [if_neg (show ¬((3:Nat) = 5 ∨ (3:Nat) = 11) from by omega),
        if_neg (show ¬((3:Nat) = 2 ∨ (3:Nat) = 8) from by omega),
        if_neg (show ¬((3:Nat) = 4 ∨ (3:Nat) = 10) from by omega),
        if_pos (show (3:Nat) = 3 ∨ (3:Nat) = 9 from by omega)]
      obtain ⟨hd1, hd2, hd3, hd4⟩ :=
        move_decode_promB f t (b.pieces.getD t 0) (by omega) (by omega) hcap
      rw [hd1, hd2, hd3]
      simp only [hd4, ne_eq, not_false_eq_true, true_and]
      rw [if_pos hturnpick]
      rw [set_set_restore_v hfp.symm hQlen hfb htb2 hft hQ]
      rw [hflip]
      repeat' apply And.intro
      all_goals first
        | (rw [hkey]; exact generate_pos_key_congr hk rfl rfl rfl rfl)
        | (split <;> omega)
        | rfl
        | trivial
    · rw [if_pos (show (11:Nat) = 5 ∨ (11:Nat) = 11 from by omega)]
      obtain ⟨hd1, hd2, hd3, hd4⟩ :=
        move_decode_promQ f t (b.pieces.getD t 0) (by omega) (by omega) hcap
      rw [hd1, hd2, hd3]
      simp only [hd4, ne_eq, not_false_eq_true, true_and]
      rw [if_pos hturnpick]
      rw [set_set_restore_v hfp.symm hQlen hfb htb2 hft hQ]
      rw [hflip]
      repeat' apply And.intro
      all_goals first
        | (rw [hkey]; exact generate_pos_key_congr hk rfl rfl rfl rfl)
        | (split <;> omega)
        | rfl
        | trivial
    · rw [if_neg (show ¬((8:Nat) = 5 ∨ (8:Nat) = 11) from by omega),
        if_pos (show (8:Nat) = 2 ∨ (8:Nat) = 8 from by omega)]
      obtain ⟨hd1, hd2, hd3, hd4⟩ :=
        move_decode_promN f t (b.pieces.getD t 0) (by omega) (by omega) hcap
      rw [hd1, hd2, hd3]
      simp only [hd4, ne_eq, not_false_eq_true, true_and]
      rw [if_pos hturnpick]
      rw [set_set_restore_v hfp.symm hQlen hfb htb2 hft hQ]
      rw [hflip]
      repeat' apply And.intro
      all_goals first
        | (rw [hkey]; exact generate_pos_key_congr hk rfl rfl rfl rfl)
        | (split <;> omega)
        | rfl
        | trivial
    · rw [if_neg (show ¬((10:Nat) = 5 ∨ (10:Nat) = 11) from by omega),
        if_neg (show ¬((10:Nat) = 2 ∨ (10:Nat) = 8) from by omega),
        if_pos (show (10:Nat) = 4 ∨ (10:Nat) = 10 from by omega)]
      obtain ⟨hd1, hd2, hd3, hd4⟩ :=
        move_decode_promR f t (b.pieces.getD t 0) (by omega) (by omega) hcap
      rw [hd1, hd2, hd3]
      simp only [hd4, ne_eq, not_false_eq_true, true_and]
      rw [if_pos hturnpick]
      rw [set_set_restore_v hfp.symm hQlen hfb htb2 hft hQ]
      rw [hflip]
      repeat' apply And.intro
      all_goals first
        | (rw [hkey]; exact generate_pos_key_congr hk rfl rfl rfl rfl)
        | (split <;> omega)
        | rfl
        | trivial
    · rw [if_neg (show ¬((9:Nat) = 5 ∨ (9:Nat) = 11) from by omega),
        if_neg (show ¬((9:Nat) = 2 ∨ (9:Nat) = 8) from by omega),
        if_neg (show ¬((9:Nat) = 4 ∨ (9:Nat) = 10) from by omega),
        if_pos (show (9:Nat) = 3 ∨ (9:Nat) = 9 from by omega)]
      obtain ⟨hd1, hd2, hd3, hd4⟩ :=
        move_decode_promB f t (b.pieces.getD t 0) (by omega) (by omega) hcap
      rw [hd1, hd2, hd3]
      simp only [hd4, ne_eq, not_false_eq_true, true_and]
      rw [if_pos hturnpick]
      rw [set_set_restore_v hfp.symm hQlen hfb htb2 hft hQ]
      rw [hflip]
      repeat' apply And.intro
      all_goals first
        | (rw [hkey]; exact generate_pos_key_congr hk rfl rfl rfl rfl)
        | (split <;> omega)
        | rfl
        | trivial
  · obtain ⟨hfp, hrt, htv, hrf⟩ := hside
    rw [process_move_black_prom hk ts mp ms b hsel
      (by rw [hmsf]; simp only [Int.toNat_natCast]
          rintro ⟨h1, _, _⟩; rw [hfp] at h1; omega)
      (by rw [hmsf]; simp only [Int.toNat_natCast]; exact ⟨hfp, hrt, hms0⟩)]
    simp only [handle_prom]
    simp only [hmsf, Int.toNat_natCast, ← hts]
    simp only [undo_history_pieces, undo_history_turn, undo_history_castle,
      undo_history_enPassant, undo_history_posKey, undo_history_hisply,
      undo_history_fiftyMoveClock, update_materials_pieces, update_materials_turn,
      update_materials_castle, update_materials_enPassant,
      update_materials_fiftyMoveClock, update_materials_hisply,
      update_materials_history, hhlen, hhis]
    rw [getD_set_ne hft]
    simp only [moveWord, Int.toNat_natCast]
    rw [if_pos (Or.inr (⟨hfp, hrt⟩ : b.pieces.getD f 0 = 7 ∧ RanksBrd.getD t 100 = 0))]
    rw [if_neg hpsneg]
    rw [if_neg (show ¬ms.enPassant ≠ 99 from by simp [hmse])]
    have hturnpick1 : ¬((if b.turn = 0 then 1 else 0) = 1) := by simp [htv]
    have hturnpick0 : (if b.turn = 0 then 1 else 0) = 0 := by simp [htv]
    have hflip : (if (if b.turn = 0 then 1 else 0) = 0 then 1 else 0) = b.turn := by
      simp [htv]
    rcases hpp with rfl | rfl | rfl | rfl | rfl | rfl | rfl | rfl
    · rw [if_pos (show (5:Nat) = 5 ∨ (5:Nat) = 11 from by omega)]
      obtain ⟨hd1, hd2, hd3, hd4⟩ :=
        move_decode_promQ f t (b.pieces.getD t 0) (by omega) (by omega) hcap
      rw [hd1, hd2, hd3]
      simp only [hd4, ne_eq, not_false_eq_true, true_and]
      rw [if_neg hturnpick1, if_pos hturnpick0]
      rw [set_set_restore_v hfp.symm hQlen hfb htb2 hft hQ]
      rw [hflip]
      repeat' apply And.intro
      all_goals first
        | (rw [hkey]; exact generate_pos_key_congr hk rfl rfl rfl rfl)
        | (split <;> omega)
        | rfl
        | trivial
    · rw [if_neg (show ¬((2:Nat) = 5 ∨ (2:Nat) = 11) from by omega),
        if_pos (show (2:Nat) = 2 ∨ (2:Nat) = 8 from by omega)]
      obtain ⟨hd1, hd2, hd3, hd4⟩ :=
        move_decode_promN f t (b.pieces.getD t 0) (by omega) (by omega) hcap
      rw [hd1, hd2, hd3]
      simp only [hd4, ne_eq, not_false_eq_true, true_and]
      rw [if_neg hturnpick1, if_pos hturnpick0]
      rw [set_set_restore_v hfp.symm hQlen hfb htb2 hft hQ]
      rw [hflip]
      repeat' apply And.intro
      all_goals first
        | (rw [hkey]; exact generate_pos_key_congr hk rfl rfl rfl rfl)
        | (split <;> omega)
        | rfl
        | trivial
    · rw [if_neg (show ¬((4:Nat) = 5 ∨ (4:Nat) = 11) from by omega),
        if_neg (show ¬((4:Nat) = 2 ∨ (4:Nat) = 8) from by omega),
        if_pos (show (4:Nat) = 4 ∨ (4:Nat) = 10 from by omega)]
      obtain ⟨hd1, hd2, hd3, hd4⟩ :=
        move_decode_promR f t (b.pieces.getD t 0) (by omega) (by omega) hcap
      rw [hd1, hd2, hd3]
      simp only [hd4, ne_eq, not_false_eq_true, true_and]
      rw [if_neg hturnpick1, if_pos hturnpick0]
      rw [set_set_restore_v hfp.symm hQlen hfb htb2 hft hQ]
      rw [hflip]
      repeat' apply And.intro
      all_goals first
        | (rw [hkey]; exact generate_pos_key_congr hk rfl rfl rfl rfl)
        | (split <;> omega)
        | rfl
        | trivial
    · rw [if_neg (show ¬((3:Nat) = 5 ∨ (3:Nat) = 11) from by omega),
        if_neg (show ¬((3:Nat) = 2 ∨ (3:Nat) = 8) from by omega),
        if_neg (show ¬((3:Nat) = 4 ∨ (3:Nat) = 10) from by omega),
        if_pos (show (3:Nat) = 3 ∨ (3:Nat) = 9 from by omega)]
      obtain ⟨hd1, hd2, hd3, hd4⟩ :=
        move_decode_promB f t (b.pieces.getD t 0) (by omega) (by omega) hcap
      rw [hd1, hd2, hd3]
      simp only [hd4, ne_eq, not_false_eq_true, true_and]
      rw [if_neg hturnpick1, if_pos hturnpick0]
      rw [set_set_restore_v hfp.symm hQlen hfb htb2 hft hQ]
      rw [hflip]
      repeat' apply And.intro
      all_goals first
        | (rw [hkey]; exact generate_pos_key_congr hk rfl rfl rfl rfl)
        | (split <;> omega)
        | rfl
        | trivial
    · rw [if_pos (show (11:Nat) = 5 ∨ (11:Nat) = 11 from by omega)]
      obtain ⟨hd1, hd2, hd3, hd4⟩ :=
        move_decode_promQ f t (b.pieces.getD t 0) (by omega) (by omega) hcap
      rw [hd1, hd2, hd3]
      simp only [hd4, ne_eq, not_false_eq_true, true_and]
      rw [if_neg hturnpick1, if_pos hturnpick0]
      rw [set_set_restore_v hfp.symm hQlen hfb htb2 hft hQ]
      rw [hflip]
      repeat' apply And.intro
      all_goals first
        | (rw [hkey]; exact generate_pos_key_congr hk rfl rfl rfl rfl)
        | (split <;> omega)
        | rfl
        | trivial
    · rw [if_neg (show ¬((8:Nat) = 5 ∨ (8:Nat) = 11) from by omega),
        if_pos (show (8:Nat) = 2 ∨ (8:Nat) = 8 from by omega)]
      obtain ⟨hd1, hd2, hd3, hd4⟩ :=
        move_decode_promN f t (b.pieces.getD t 0) (by omega) (by omega) hcap
      rw [hd1, hd2, hd3]
      simp only [hd4, ne_eq, not_false_eq_true, true_and]
      rw [if_neg hturnpick1, if_pos hturnpick0]
      rw [set_set_restore_v hfp.symm hQlen hfb htb2 hft hQ]
      rw [hflip]
      repeat' apply And.intro
      all_goals first
        | (rw [hkey]; exact generate_pos_key_congr hk rfl rfl rfl rfl)
        | (split <;> omega)
        | rfl
        | trivial
    · rw [if_neg (show ¬((10:Nat) = 5 ∨ (10:Nat) = 11) from by omega),
        if_neg (show ¬((10:Nat) = 2 ∨ (10:Nat) = 8) from by omega),
        if_pos (show (10:Nat) = 4 ∨ (10:Nat) = 10 from by omega)]
      obtain ⟨hd1, hd2, hd3, hd4⟩ :=
        move_decode_promR f t (b.pieces.getD t 0) (by omega) (by omega) hcap
      rw [hd1, hd2, hd3]
      simp only [hd4, ne_eq, not_false_eq_true, true_and]
      rw [if_neg hturnpick1, if_pos hturnpick0]
      rw [set_set_restore_v hfp.symm hQlen hfb htb2 hft hQ]
      rw [hflip]
      repeat' apply And.intro
      all_goals first
        | (rw [hkey]; exact generate_pos_key_congr hk rfl rfl rfl rfl)
        | (split <;> omega)
        | rfl
        | trivial
    · rw [if_neg (show ¬((9:Nat) = 5 ∨ (9:Nat) = 11) from by omega),
        if_neg (show ¬((9:Nat) = 2 ∨ (9:Nat) = 8) from by omega),
        if_neg (show ¬((9:Nat) = 4 ∨ (9:Nat) = 10) from by omega),
        if_pos (show (9:Nat) = 3 ∨ (9:Nat) = 9 from by omega)]
      obtain ⟨hd1, hd2, hd3, hd4⟩ :=
        move_decode_promB f t (b.pieces.getD t 0) (by omega) (by omega) hcap
      rw [hd1, hd2, hd3]
      simp only [hd4, ne_eq, not_false_eq_true, true_and]
      rw [if_neg hturnpick1, if_pos hturnpick0]
      rw [set_set_restore_v hfp.symm hQlen hfb htb2 hft hQ]
      rw [hflip]
      repeat' apply And.intro
      all_goals first
        | (rw [hkey]; exact generate_pos_key_congr hk rfl rfl rfl rfl)
        | (split <;> omega)
        | rfl
        | trivial

/-! ### C1: the apply/undo round-trip -/

/-- C1.  Apply/undo round-trip.  For a legal-shaped move — a selected
playable from-square `f`, a distinct playable destination, a 120-cell
pieces array, a 2048-slot history, a stored position key matching
`generate_pos_key` and fewer than 2048 plies played — undoing right after
applying restores the board.  First conjunct: when the move is not a
promotion, `process_move` followed by `undo_move` restores the piece
placement, turn, castle rights, en-passant square and position hash,
restores `hisply`, and leaves the fifty-move clock at its old value
decremented by one, floored at zero (the separate decrement rule of
`undo_move`).  Second conjunct: when the move promotes — a white pawn
reaching rank 8 on white's turn or a black pawn reaching rank 1 on
black's turn, finalised by `handle_prom` with any of the eight promotion
pieces — the same fields are restored. -/
theorem apply_undo_roundtrip (hk : HashKeys) (ts mp : Nat × Nat)
    (ms : MoveState) (b : BoardState) (f pp : Nat)
    (hmsf : ms.from120 = (f : Int))
    (hf : f < 120)
    (hsel : (mouse_pos_to_120 ts mp : Int) ≠ ms.from120)
    (htb : mouse_pos_to_120 ts mp < 120)
    (hlen : b.pieces.length = 120)
    (hcap : b.pieces.getD (mouse_pos_to_120 ts mp) 0 < 16)
    (hturn : b.turn = 0 ∨ b.turn = 1)
    (hkey : b.posKey = generate_pos_key hk b)
    (hhis : b.hisply < 2048)
    (hhlen : b.history.length = 2048) :
    ((¬(b.pieces.getD f 0 = 1 ∧ RanksBrd.getD (mouse_pos_to_120 ts mp) 100 = 7) →
      ¬(b.pieces.getD f 0 = 7 ∧ RanksBrd.getD (mouse_pos_to_120 ts mp) 100 = 0) →
      (undo_move hk (process_move hk ts mp ms b).1 (process_move hk ts mp ms b).2).2.pieces = b.pieces ∧
      (undo_move hk (process_move hk ts mp ms b).1 (process_move hk ts mp ms b).2).2.turn = b.turn ∧
      (undo_move hk (process_move hk ts mp ms b).1 (process_move hk ts mp ms b).2).2.castle = b.castle ∧
      (undo_move hk (process_move hk ts mp ms b).1 (process_move hk ts mp ms b).2).2.enPassant = b.enPassant ∧
      (undo_move hk (process_move hk ts mp ms b).1 (process_move hk ts mp ms b).2).2.posKey = b.posKey ∧
      (undo_move hk (process_move hk ts mp ms b).1 (process_move hk ts mp ms b).2).2.hisply = b.hisply ∧
      (undo_move hk (process_move hk ts mp ms b).1 (process_move hk ts mp ms b).2).2.fiftyMoveClock = b.fiftyMoveClock - 1) ∧
     (ms.prom = 0 → ms.enPassant = 99 →
      (pp = 5 ∨ pp = 2 ∨ pp = 4 ∨ pp = 3 ∨ pp = 11 ∨ pp = 8 ∨ pp = 10 ∨ pp = 9) →
      ((b.pieces.getD f 0 = 1 ∧ RanksBrd.getD (mouse_pos_to_120 ts mp) 100 = 7 ∧
          b.turn = 0 ∧ RanksBrd.getD f 100 ≠ 1) ∨
       (b.pieces.getD f 0 = 7 ∧ RanksBrd.getD (mouse_pos_to_120 ts mp) 100 = 0 ∧
          b.turn = 1 ∧ RanksBrd.getD f 100 ≠ 6)) →
      (undo_move hk (handle_prom hk (process_move hk ts mp ms b).1 (process_move hk ts mp ms b).2 pp).1
          (handle_prom hk (process_move hk ts mp ms b).1 (process_move hk ts mp ms b).2 pp).2).2.pieces = b.pieces ∧
      (undo_move hk (handle_prom hk (process_move hk ts mp ms b).1 (process_move hk ts mp ms b).2 pp).1
          (handle_prom hk (process_move hk ts mp ms b).1 (process_move hk ts mp ms b).2 pp).2).2.turn = b.turn ∧
      (undo_move hk (handle_prom hk (process_move hk ts mp ms b).1 (process_move hk ts mp ms b).2 pp).1
          (handle_prom hk (process_move hk ts mp ms b).1 (process_move hk ts mp ms b).2 pp).2).2.castle = b.castle ∧
      (undo_move hk (handle_prom hk (process_move hk ts mp ms b).1 (process_move hk ts mp ms b).2 pp).1
          (handle_prom hk (process_move hk ts mp ms b).1 (process_move hk ts mp ms b).2 pp).2).2.enPassant = b.enPassant ∧
      (undo_move hk (handle_prom hk (process_move hk ts mp ms b).1 (process_move hk ts mp ms b).2 pp).1
          (handle_prom hk (process_move hk ts mp ms b).1 (process_move hk ts mp ms b).2 pp).2).2.posKey = b.posKey ∧
      (undo_move hk (handle_prom hk (process_move hk ts mp ms b).1 (process_move hk ts mp ms b).2 pp).1
          (handle_prom hk (process_move hk ts mp ms b).1 (process_move hk ts mp ms b).2 pp).2).2.hisply = b.hisply ∧
      (undo_move hk (handle_prom hk (process_move hk ts mp ms b).1 (process_move hk ts mp ms b).2 pp).1
          (handle_prom hk (process_move hk ts mp ms b).1 (process_move hk ts mp ms b).2 pp).2).2.fiftyMoveClock = b.fiftyMoveClock - 1)) := by
  constructor
  · intro hnp1 hnp2
    exact roundtrip_plain hk ts mp ms b f hmsf hf hsel htb hlen hcap hturn hkey
      hhis hhlen hnp1 hnp2
  · intro hms0 hmse hpp hside
    exact roundtrip_prom hk ts mp ms b f pp hmsf hf hsel htb hlen hcap hkey
      hhis hhlen hms0 hmse hpp hside

/-- Witness for C1: e2–e4 from the starting position (non-promotion part),
and a white pawn promoting E7–E8 to a queen on an otherwise empty board
(promotion part).  Both round-trips restore the pieces array, and the
first also restores the position key. -/
theorem apply_undo_roundtrip_witness :
    (startBoard hkZero).pieces.getD 35 0 = 1 ∧
    (undo_move hkZero
        (process_move hkZero (80, 80) (320, 320) msE2 (startBoard hkZero)).1
        (process_move hkZero (80, 80) (320, 320) msE2 (startBoard hkZero)).2).2.pieces =
      (startBoard hkZero).pieces ∧
    (undo_move hkZero
        (process_move hkZero (80, 80) (320, 320) msE2 (startBoard hkZero)).1
        (process_move hkZero (80, 80) (320, 320) msE2 (startBoard hkZero)).2).2.posKey =
      (startBoard hkZero).posKey ∧
    (undo_move hkZero
        (handle_prom hkZero
          (process_move hkZero (80, 80) (320, 0) msE7 bPromBoard).1
          (process_move hkZero (80, 80) (320, 0) msE7 bPromBoard).2 5).1
        (handle_prom hkZero
          (process_move hkZero (80, 80) (320, 0) msE7 bPromBoard).1
          (process_move hkZero (80, 80) (320, 0) msE7 bPromBoard).2 5).2).2.pieces =
      bPromBoard.pieces := by
  have H := apply_undo_roundtrip hkZero (80, 80) (320, 320) msE2
    (startBoard hkZero) 35 5 (by decide) (by decide) (by decide) (by decide)
    (by decide) (by decide) (by decide) (by decide) (by decide)
    (by rw [show (startBoard hkZero).history = List.replicate 2048 none from rfl,
      List.length_replicate])
  have G := apply_undo_roundtrip hkZero (80, 80) (320, 0) msE7 bPromBoard 85 5
    (by decide) (by decide) (by decide) (by decide) (by decide) (by decide)
    (by decide) (by decide) (by decide)
    (by rw [show bPromBoard.history = List.replicate 2048 none from rfl,
      List.length_replicate])
  have Hp := H.1 (by decide) (by decide)
  have Gp := G.2 (by decide) (by decide) (by decide) (Or.inl (by decide))
  exact ⟨by decide, Hp.1, Hp.2.2.2.2.1, Gp.1⟩

/-! ### C2: aggregate consistency under apply/undo -/

theorem aggConsistent_intro (X : BoardState)
    (h1 : X.pceNum = (scanMaterials X.pieces).pceNum)
    (h2 : X.bigPce = (scanMaterials X.pieces).bigPce)
    (h3 : X.majPce = (scanMaterials X.pieces).majPce)
    (h4 : X.minPce = (scanMaterials X.pieces).minPce)
    (h5 : X.material = (scanMaterials X.pieces).material)
    (h6 : X.kingSquare = (scanMaterials X.pieces).kingSquare)
    (h7 : X.pList = (scanMaterials X.pieces).pList)
    (h8 : X.pawns = (scanMaterials X.pieces).pawns) :
    aggConsistent X := by
  unfold aggConsistent aggOf
  rw [h1, h2, h3, h4, h5, h6, h7, h8]

theorem aggConsistent_update_materials (hk : HashKeys) (b : BoardState) :
    aggConsistent (update_materials hk b) :=
  aggConsistent_intro _ rfl rfl rfl rfl rfl rfl rfl rfl

theorem apply_move_aggConsistent (hk : HashKeys) (ts mousePos : Nat × Nat)
    (promPiece : Nat) (ms : MoveState) (b : BoardState) (h : aggConsistent b) :
    aggConsistent (apply_move hk ts mousePos promPiece ms b).2 := by
  by_cases h0 : (mouse_pos_to_120 ts mousePos : Int) = ms.from120
  · have hr : process_move hk ts mousePos ms b = ({ ms with from120 := -1 }, b) := by
      simp only [process_move]
      rw [if_pos h0]
    by_cases hpr : ms.prom = 0
    · simp only [apply_move, hr]
      rw [if_neg (show ¬ms.prom ≠ 0 from by simp [hpr])]
      exact h
    · simp only [apply_move, hr]
      rw [if_pos hpr]
      exact aggConsistent_intro _ rfl rfl rfl rfl rfl rfl rfl rfl
  · by_cases hcw : b.pieces.getD ms.from120.toNat 0 = 1 ∧
        RanksBrd.getD (mouse_pos_to_120 ts mousePos) 100 = 7 ∧ ms.prom = 0
    · simp only [apply_move, process_move_white_prom hk ts mousePos ms b h0 hcw]
      rw [if_pos (show (1 : Nat) ≠ 0 from by omega)]
      exact aggConsistent_intro _ rfl rfl rfl rfl rfl rfl rfl rfl
    · by_cases hcb : b.pieces.getD ms.from120.toNat 0 = 7 ∧
          RanksBrd.getD (mouse_pos_to_120 ts mousePos) 100 = 0 ∧ ms.prom = 0
      · simp only [apply_move,
          process_move_black_prom hk ts mousePos ms b h0 hcw hcb]
        rw [if_pos (show (2 : Nat) ≠ 0 from by omega)]
        exact aggConsistent_intro _ rfl rfl rfl rfl rfl rfl rfl rfl
      · simp only [apply_move, process_move, set_to_index_120, reset_move,
          Int.toNat_natCast]
        rw [if_neg h0, if_neg hcw, if_neg hcb]
        rw [if_neg (show ¬((0 : Nat) ≠ 0) from by omega)]
        split
        · exact aggConsistent_intro _ rfl rfl rfl rfl rfl rfl rfl rfl
        · exact aggConsistent_intro _ rfl rfl rfl rfl rfl rfl rfl rfl

theorem undo_move_aggConsistent (hk : HashKeys) (ms : MoveState)
    (b : BoardState) (h : aggConsistent b) :
    aggConsistent (undo_move hk ms b).2 := by
  simp only [undo_move]
  repeat' split
  all_goals first
    | exact h
    | exact aggConsistent_intro _ rfl rfl rfl rfl rfl rfl rfl rfl

theorem run_ops_aggConsistent (hk : HashKeys) (ops : List GuiOp)
    (s : MoveState × BoardState) (h : aggConsistent s.2) :
    aggConsistent (run_ops hk ops s).2 := by
  induction ops generalizing s with
  | nil => exact h
  | cons op ops ih =>
    rw [run_ops, List.foldl_cons]
    refine ih _ ?_
    cases op with
    | play ts mousePos promPiece =>
      exact apply_move_aggConsistent hk ts mousePos promPiece s.1 s.2 h
    | undo => exact undo_move_aggConsistent hk s.1 s.2 h

theorem update_materials_idem (hk : HashKeys) (b : BoardState) :
    update_materials hk (update_materials hk b) = update_materials hk b := by
  obtain ⟨p, tn, c, e, fc, ks, hp, pn, bp, mj, mn, mt, pl, pw, pk, hi, pa, pg⟩ := b
  simp only [update_materials, BoardState.mk.injEq]
  repeat' apply And.intro
  all_goals first
    | rfl
    | trivial
    | exact generate_pos_key_congr hk rfl rfl rfl rfl

/-- C2.  Aggregate consistency.  `aggConsistent b` says the maintained
aggregates (piece counts, big/major/minor counts, material sums, king
squares, piece lists and the pawn bitboards collected by `aggOf`) equal a
full rescan of the 120-cell pieces array (`scanMaterials`).  First three
conjuncts: each finalised move (`apply_move`, i.e. `process_move` plus
`handle_prom` when a promotion opens), each undo, and hence every sequence
of GUI operations, preserves `aggConsistent`.  Fourth conjunct: right after
`update_materials` the aggregates equal the rescan.  Fifth conjunct:
recomputing is idempotent — a second `update_materials` leaves the whole
board, aggregates included, unchanged. -/
theorem aggregate_consistency (hk : HashKeys) :
    (∀ (ts mousePos : Nat × Nat) (promPiece : Nat) (ms : MoveState)
        (b : BoardState), aggConsistent b →
        aggConsistent (apply_move hk ts mousePos promPiece ms b).2) ∧
    (∀ (ms : MoveState) (b : BoardState), aggConsistent b →
        aggConsistent (undo_move hk ms b).2) ∧
    (∀ (ops : List GuiOp) (s : MoveState × BoardState), aggConsistent s.2 →
        aggConsistent (run_ops hk ops s).2) ∧
    (∀ b : BoardState, aggConsistent (update_materials hk b)) ∧
    (∀ b : BoardState,
        update_materials hk (update_materials hk b) = update_materials hk b) :=
  ⟨fun ts mousePos promPiece ms b h =>
      apply_move_aggConsistent hk ts mousePos promPiece ms b h,
   fun ms b h => undo_move_aggConsistent hk ms b h,
   fun ops s h => run_ops_aggConsistent hk ops s h,
   fun b => aggConsistent_update_materials hk b,
   fun b => update_materials_idem hk b⟩

/-- Witness for C2: the starting position is aggregate-consistent, and it
stays consistent across the concrete sequence "play e2–e4, then undo". -/
theorem aggregate_consistency_witness :
    aggConsistent (startBoard hkZero) ∧
    aggConsistent (run_ops hkZero
      [GuiOp.play (80, 80) (320, 320) 5, GuiOp.undo]
      (msE2, startBoard hkZero)).2 :=
  ⟨aggConsistent_update_materials hkZero _,
   (aggregate_consistency hkZero).2.2.1
    [GuiOp.play (80, 80) (320, 320) 5, GuiOp.undo]
    (msE2, startBoard hkZero) (aggConsistent_update_materials hkZero _)⟩

end ChessEngine
